import Mathlib

/-!
A shallow embedding of `prog.c` (helloIB), with the properties of its
specification stated and proved over it.

The program is a single translation unit with two build variants
(`BUILD_SERVER`, `BUILD_CLIENT`).  Every call that leaves the program
(verbs library, sockets, `mmap`) is answered by a `World`, a record of the
values those calls return.  Running `main` against a world yields the trace
of calls it performed, in order, and its outcome.  Diagnostic `fprintf`
lines are left out of the trace except for the two that show the completion
status and the buffer content.
-/

namespace HelloIB

/-! ## Constants and plain data -/

/-- Value of `#define QUEUESZ` (line 12). -/
def QUEUESZ : Nat := 100000

/-- Value of `#define BUFADDR` (line 13). -/
def BUFADDR : Nat := 0x80080000

/-- Value of `#define BUFSZ` (line 14). -/
def BUFSZ : Nat := 4096

/-- Value of `#define XCHG_PORT` (line 10). -/
def XCHG_PORT : Nat := 0x6666

/-- The two build variants selected by `#ifdef BUILD_SERVER` / `BUILD_CLIENT`. -/
inductive Role
  | server
  | client
  deriving DecidableEq

/-- Fields of `struct xchg_info` (lines 16-20): two `uint32_t` and a 16 byte
`union ibv_gid`, kept here as its byte list. -/
structure xchg_info where
  mrkey : Nat
  qp_num : Nat
  gid : List Nat
  deriving DecidableEq

/-- The four bytes of a `uint32_t` in memory, least significant first. -/
def le32 (v : Nat) : List Nat :=
  [v % 256, v / 256 % 256, v / 65536 % 256, v / 16777216 % 256]

/-- The `uint32_t` held by the first four bytes of `b`. -/
def le32_val (b : List Nat) : Nat :=
  b.getD 0 0 + 256 * b.getD 1 0 + 65536 * b.getD 2 0 + 16777216 * b.getD 3 0

/-- Value of `sizeof(struct xchg_info)`: 4 + 4 + 16 bytes, no padding. -/
def XCHG_SIZE : Nat := 24

/-- Memory image of a `struct xchg_info`. -/
def xchg_info.toBytes (x : xchg_info) : List Nat :=
  le32 x.mrkey ++ le32 x.qp_num ++ x.gid

/-- The `struct xchg_info` held by a memory image. -/
def xchg_info.ofBytes (b : List Nat) : xchg_info :=
  ⟨le32_val (b.take 4), le32_val ((b.drop 4).take 4), (b.drop 8).take 16⟩

/-- Effect of `read(fd, remote, sizeof(struct xchg_info))` delivering the bytes
`d`: the leading bytes of the record are overwritten and the rest keeps what
it held before. -/
def xchg_info.store (old : xchg_info) (d : List Nat) : xchg_info :=
  xchg_info.ofBytes (d ++ old.toBytes.drop d.length)

/-- A record whose fields fit their C types. -/
def xchg_info.wf (x : xchg_info) : Prop :=
  x.mrkey < 2 ^ 32 ∧ x.qp_num < 2 ^ 32 ∧ x.gid.length = 16

/-- Modelled from the spec: the status of a completion record, which
`infiniband/verbs.h` declares as `enum ibv_wc_status`; the spec describes it
as success or a fabric-defined failure code. -/
inductive WcStatus
  | success
  | failure (code : Nat)
  deriving DecidableEq

/-- Queue pair states named by the program (`enum ibv_qp_state`). -/
inductive ibv_qp_state
  | IBV_QPS_RESET
  | IBV_QPS_INIT
  | IBV_QPS_RTR
  | IBV_QPS_RTS
  deriving DecidableEq

/-- Attribute mask bits named by the program (`enum ibv_qp_attr_mask`). -/
inductive ibv_qp_attr_mask
  | IBV_QP_STATE
  | IBV_QP_PORT
  | IBV_QP_PKEY_INDEX
  | IBV_QP_ACCESS_FLAGS
  | IBV_QP_PATH_MTU
  | IBV_QP_DEST_QPN
  | IBV_QP_RQ_PSN
  | IBV_QP_MAX_DEST_RD_ATOMIC
  | IBV_QP_MIN_RNR_TIMER
  | IBV_QP_AV
  | IBV_QP_SQ_PSN
  | IBV_QP_TIMEOUT
  | IBV_QP_RETRY_CNT
  | IBV_QP_RNR_RETRY
  | IBV_QP_MAX_QP_RD_ATOMIC
  deriving DecidableEq

/-- Access permission bits named by the program (`enum ibv_access_flags`). -/
inductive ibv_access_flags
  | IBV_ACCESS_LOCAL_WRITE
  | IBV_ACCESS_REMOTE_READ
  | IBV_ACCESS_REMOTE_WRITE
  deriving DecidableEq

/-- Path MTU values named by the program (`enum ibv_mtu`). -/
inductive ibv_mtu
  | IBV_MTU_2048
  deriving DecidableEq

/-- Work request opcodes named by the program (`enum ibv_wr_opcode`). -/
inductive ibv_wr_opcode
  | IBV_WR_RDMA_READ
  | IBV_WR_RDMA_WRITE
  deriving DecidableEq

/-- Send flags named by the program (`enum ibv_send_flags`). -/
inductive ibv_send_flags
  | IBV_SEND_SIGNALED
  deriving DecidableEq

/-- The fields of `struct ibv_qp_attr` the program assigns (lines 177-224);
a field it has not assigned yet is zero, as the designated initialiser leaves
it. -/
structure ibv_qp_attr where
  qp_state : ibv_qp_state
  port_num : Nat := 0
  pkey_index : Nat := 0
  qp_access_flags : List ibv_access_flags := []
  path_mtu : Option ibv_mtu := none
  dest_qp_num : Nat := 0
  rq_psn : Nat := 0
  max_dest_rd_atomic : Nat := 0
  min_rnr_timer : Nat := 0
  ah_is_global : Nat := 0
  ah_dgid : List Nat := List.replicate 16 0
  ah_sgid_index : Nat := 0
  ah_hop_limit : Nat := 0
  ah_dlid : Nat := 0
  ah_sl : Nat := 0
  ah_src_path_bits : Nat := 0
  ah_port_num : Nat := 0
  sq_psn : Nat := 0
  timeout : Nat := 0
  retry_cnt : Nat := 0
  rnr_retry : Nat := 0
  max_rd_atomic : Nat := 0
  deriving DecidableEq

/-- The fields of `struct ibv_sge` (lines 242-246, 286-290). -/
structure ibv_sge where
  addr : Nat
  length : Nat
  lkey : Nat
  deriving DecidableEq

/-- The fields of `struct ibv_send_wr` the program assigns (lines 291-298). -/
structure ibv_send_wr where
  sg_list : ibv_sge
  num_sge : Nat
  opcode : ibv_wr_opcode
  send_flags : List ibv_send_flags
  remote_addr : Nat
  rkey : Nat
  deriving DecidableEq

/-- The fields of `struct ibv_recv_wr` the program assigns (lines 247-250). -/
structure ibv_recv_wr where
  sg_list : ibv_sge
  num_sge : Nat
  deriving DecidableEq

/-- The two keys of a registered memory region (`mr->lkey`, `mr->rkey`). -/
structure ibv_mr where
  lkey : Nat
  rkey : Nat
  deriving DecidableEq

/-! ## Traces -/

/-- One call the program makes, with the arguments that vary and the value
the call returned.  The program has no call to `munmap`; the event is listed
so that the release of the buffer mapping has a name. -/
inductive Event
  | socket (ret : Int)
  | gethostbyname (ok : Bool)
  | bind (ret : Int)
  | listen (ret : Int)
  | accept (ret : Int)
  | connect (ret : Int)
  | read (count : Nat) (ret : Int) (data : List Nat)
  | write (data : List Nat) (count : Nat) (ret : Int)
  | close_comm
  | close_sock
  | ibv_get_device_list (ok : Bool)
  | ibv_open_device (i : Nat) (ok : Bool)
  | ibv_query_device (ret : Int)
  | mmap (addr len : Nat) (ok : Bool)
  | ibv_alloc_pd (ok : Bool)
  | ibv_reg_mr (len : Nat) (access : List ibv_access_flags) (ok : Bool)
  | ibv_create_cq (cqe : Nat) (ok : Bool)
  | ibv_create_qp (max_send_wr max_recv_wr : Nat) (ok : Bool)
  | ibv_query_gid (ret : Int)
  | ibv_query_port (ret : Int)
  | ibv_modify_qp (attr : ibv_qp_attr) (mask : List ibv_qp_attr_mask) (ret : Int)
  | strcpy (s : String)
  | ibv_post_recv (wr : ibv_recv_wr) (ret : Int)
  | ibv_post_send (wr : ibv_send_wr) (ret : Int)
  | ibv_poll_cq (ncomp : Int) (status : WcStatus)
  | sleep (seconds : Nat)
  | fprintf_wc_status (status : WcStatus)
  | fprintf_buf (content : String)
  | ibv_destroy_qp
  | ibv_destroy_cq
  | ibv_dereg_mr
  | ibv_dealloc_pd
  | ibv_close_device
  | ibv_free_device_list
  | munmap
  deriving DecidableEq

/-- A value together with the calls made while computing it. -/
structure Traced (α : Type) where
  trace : List Event
  val : α

/-- Put the calls `es` in front of a traced computation. -/
def Traced.after {α : Type} (es : List Event) (r : Traced α) : Traced α :=
  ⟨es ++ r.trace, r.val⟩

/-! ## The rendezvous: `exchange_info` -/

/-- What the socket layer answers to `exchange_info`.  `read` is `none` when
the call fails and otherwise the bytes the stream has ready (the call hands
over at most `count` of them and returns how many); the other fields are the
plain return values. -/
structure SockWorld where
  socket : Int
  gethostbyname : Bool
  bind : Int
  listen : Int
  accept : Int
  connect : Int
  read : Option (List Nat)
  write : Int

/-- Return value of `read(fd, buf, count)`. -/
def read_ret (avail : Option (List Nat)) (count : Nat) : Int :=
  match avail with
  | none => -1
  | some d => ((d.take count).length : Nat)

/-- Bytes `read(fd, buf, count)` puts into `buf`. -/
def read_data (avail : Option (List Nat)) (count : Nat) : List Nat :=
  match avail with
  | none => []
  | some d => d.take count

/-- Lines 51-55 and 64-65: the listener, once a peer is accepted. -/
def exchange_info_listener (s : SockWorld) (remote loc : xchg_info) :
    Traced (Int × xchg_info) :=
  let n := read_ret s.read XCHG_SIZE
  let d := read_data s.read XCHG_SIZE
  let remote1 := remote.store d
  .after [.read XCHG_SIZE n d] <|
  if n < 0 then ⟨[], (-1, remote1)⟩ else
  .after [.write loc.toBytes XCHG_SIZE s.write] <|
  if s.write < 0 then ⟨[], (-1, remote1)⟩ else
  ⟨[.close_comm, .close_sock], (0, remote1)⟩

/-- Lines 59-65: the initiator, once connected. -/
def exchange_info_initiator (s : SockWorld) (remote loc : xchg_info) :
    Traced (Int × xchg_info) :=
  .after [.write loc.toBytes XCHG_SIZE s.write] <|
  if s.write < 0 then ⟨[], (-1, remote)⟩ else
  let n := read_ret s.read XCHG_SIZE
  let d := read_data s.read XCHG_SIZE
  let remote1 := remote.store d
  .after [.read XCHG_SIZE n d] <|
  if n < 0 then ⟨[], (-1, remote1)⟩ else
  ⟨[.close_sock], (0, remote1)⟩

/-- The function `exchange_info` (lines 30-66).  The result holds the return
value and the content of `*remote` when the function returns. -/
def exchange_info (role : Role) (s : SockWorld) (remote loc : xchg_info) :
    Traced (Int × xchg_info) :=
  .after [.socket s.socket] <|
  if s.socket < 0 then ⟨[], (-1, remote)⟩ else
  .after [.gethostbyname s.gethostbyname] <|
  if !s.gethostbyname then ⟨[], (-1, remote)⟩ else
  match role with
  | .server =>
    .after [.bind s.bind] <|
    if s.bind < 0 then ⟨[], (-1, remote)⟩ else
    .after [.listen s.listen] <|
    if s.listen < 0 then ⟨[], (-1, remote)⟩ else
    .after [.accept s.accept] <|
    if s.accept < 0 then ⟨[], (-1, remote)⟩ else
    exchange_info_listener s remote loc
  | .client =>
    .after [.connect s.connect] <|
    if s.connect < 0 then ⟨[], (-1, remote)⟩ else
    exchange_info_initiator s remote loc

/-! ## The world `main` runs in -/

/-- What the verbs library, `mmap` and the socket layer answer to `main`.
Calls that `main` repeats (`ibv_modify_qp`, the posts, `ibv_poll_cq`) are
answered by position: the field applied to `k` is the answer to the call
number `k`, counted from zero.  `poll_cq k` is the return value of the poll
number `k` together with the status field `wc` holds after it; `buf k` is
what the bytes at `BUFADDR` spell when the program looks at them for the
time number `k`. -/
structure World where
  IBV_SYSFS_NAME_MAX : Nat
  get_device_list : Bool
  ndev : Int
  dev_name : Nat → String
  open_device : Nat → Bool
  query_device : Int
  max_qp_wr : Int
  mmap : Bool
  alloc_pd : Bool
  reg_mr : Option ibv_mr
  create_cq : Bool
  create_qp : Option Nat
  query_gid : Int
  gid : List Nat
  sock : SockWorld
  remote_info0 : xchg_info
  query_port : Int
  modify_qp : Nat → Int
  post_recv : Nat → Int
  post_send : Nat → Int
  poll_cq : Nat → Int × WcStatus
  buf : Nat → String

/-- How a run of `main` ends: it returned `err`, it evaluated a division C
leaves undefined, or it is still inside a polling loop when the iteration
budget is used up. -/
inductive Outcome
  | returned (err : Int)
  | undefined
  | polling
  deriving DecidableEq

/-- Whether `strncmp(a, b, n)` is zero: the first `n` characters agree. -/
def strncmp_zero (a b : String) (n : Nat) : Bool :=
  a.toList.take n == b.toList.take n

/-- The selection loop of lines 81-91, entered at index `i` with `n` indices
left below `ndev`: the first index whose name is `mlx5_3`. -/
def find_device (w : World) : Nat → Nat → Option Nat
  | 0, _ => none
  | n + 1, i =>
    if strncmp_zero (w.dev_name i) "mlx5_3" w.IBV_SYSFS_NAME_MAX then some i
    else find_device w n (i + 1)

/-- Division of two `int`s: undefined for a zero divisor and for the one
quotient that does not fit, truncating otherwise. -/
def int_div (a b : Int) : Option Int :=
  if b = 0 then none
  else if a = -2147483648 ∧ b = -1 then none
  else some (Int.tdiv a b)

/-- Conversion of an `int` to `uint32_t`. -/
def to_uint32 (v : Int) : Nat := (v % 2 ^ 32).toNat

/-! ### Cleanup labels (lines 329-342) -/

/-- Label `failed_ctx`. -/
def failed_ctx (err : Int) : Traced Outcome :=
  ⟨[.ibv_free_device_list], .returned err⟩

/-- Label `failed_pd`. -/
def failed_pd (err : Int) : Traced Outcome :=
  .after [.ibv_close_device] (failed_ctx err)

/-- Label `failed_mr`. -/
def failed_mr (err : Int) : Traced Outcome :=
  .after [.ibv_dealloc_pd] (failed_pd err)

/-- Label `failed_cq`. -/
def failed_cq (err : Int) : Traced Outcome :=
  .after [.ibv_dereg_mr] (failed_mr err)

/-- Label `failed_qp`. -/
def failed_qp (err : Int) : Traced Outcome :=
  .after [.ibv_destroy_cq] (failed_cq err)

/-- Label `failed_trans`. -/
def failed_trans (err : Int) : Traced Outcome :=
  .after [.ibv_destroy_qp] (failed_qp err)

/-- Label `out`, which falls into `failed_trans`. -/
def out (err : Int) : Traced Outcome := failed_trans err

/-! ### Polling loops -/

/-- The loop `do ncomp = ibv_poll_cq(cq, 1, &wc); while (!ncomp);` of lines
308-310 and 323-325, entered with `k` polls already made and allowed `fuel`
iterations.  It yields the calls made and, when the loop ended, the number
of polls made so far and `wc.status`. -/
def client_wait (w : World) : (fuel : Nat) → (k : Nat) → List Event × Option (Nat × WcStatus)
  | 0, _ => ([], none)
  | fuel + 1, k =>
    let p := w.poll_cq k
    if p.1 = 0 then
      let r := client_wait w fuel (k + 1)
      (Event.ibv_poll_cq p.1 p.2 :: r.1, r.2)
    else ([Event.ibv_poll_cq p.1 p.2], some (k + 1, p.2))

/-- The loop of lines 276-280: poll, sleep one second, print the buffer,
repeat while `!ncomp`. -/
def server_wait (w : World) : (fuel : Nat) → (k : Nat) → List Event × Option (Nat × WcStatus)
  | 0, _ => ([], none)
  | fuel + 1, k =>
    let p := w.poll_cq k
    let body := [Event.ibv_poll_cq p.1 p.2, Event.sleep 1, Event.fprintf_buf (w.buf k)]
    if p.1 = 0 then
      let r := server_wait w fuel (k + 1)
      (body ++ r.1, r.2)
    else (body, some (k + 1, p.2))

/-! ### The data plane -/

/-- The scatter/gather entry both variants build (lines 242-246, 286-290). -/
def sg (mr : ibv_mr) : ibv_sge := ⟨BUFADDR, 16, mr.lkey⟩

/-- Lines 238-283, the `BUILD_SERVER` data plane, up to label `out`. -/
def transfer_server (w : World) (mr : ibv_mr) (fuel : Nat) : Traced Outcome :=
  let wr : ibv_recv_wr := ⟨sg mr, 1⟩
  .after [.strcpy "SERVER", .ibv_post_recv wr (w.post_recv 0)] <|
  if w.post_recv 0 ≠ 0 then out (-1) else
  .after [.ibv_post_recv wr (w.post_recv 1)] <|
  if w.post_recv 1 ≠ 0 then out (-1) else
  match server_wait w fuel 0 with
  | (tr, none) => ⟨tr, .polling⟩
  | (tr, some (k, status)) =>
    .after (tr ++ [.fprintf_wc_status status, .fprintf_buf (w.buf k)]) (out 0)

/-- Lines 284-327, the `BUILD_CLIENT` data plane, up to label `out`. -/
def transfer_client (w : World) (mr : ibv_mr) (remote_info : xchg_info) (fuel : Nat) :
    Traced Outcome :=
  let sr : ibv_send_wr :=
    ⟨sg mr, 1, .IBV_WR_RDMA_READ, [.IBV_SEND_SIGNALED], BUFADDR, remote_info.mrkey⟩
  .after [.ibv_post_send sr (w.post_send 0)] <|
  if w.post_send 0 ≠ 0 then out (-1) else
  match client_wait w fuel 0 with
  | (tr, none) => ⟨tr, .polling⟩
  | (tr, some (k, status)) =>
    let sr2 : ibv_send_wr := { sr with opcode := .IBV_WR_RDMA_WRITE }
    .after (tr ++ [.fprintf_wc_status status, .fprintf_buf (w.buf 0), .strcpy "client",
      .ibv_post_send sr2 (w.post_send 1)]) <|
    if w.post_send 1 ≠ 0 then out (-1) else
    match client_wait w fuel k with
    | (tr2, none) => ⟨tr2, .polling⟩
    | (tr2, some (_, status2)) =>
      .after (tr2 ++ [.fprintf_wc_status status2]) (out 0)

/-! ### The queue pair state machine -/

/-- The attribute set of the Reset to Init request (lines 177-182). -/
def attr_init : ibv_qp_attr :=
  { qp_state := .IBV_QPS_INIT, port_num := 1, pkey_index := 0,
    qp_access_flags :=
      [.IBV_ACCESS_LOCAL_WRITE, .IBV_ACCESS_REMOTE_READ, .IBV_ACCESS_REMOTE_WRITE] }

/-- The mask of the Reset to Init request (lines 183-187). -/
def mask_init : List ibv_qp_attr_mask :=
  [.IBV_QP_STATE, .IBV_QP_PORT, .IBV_QP_PKEY_INDEX, .IBV_QP_ACCESS_FLAGS]

/-- The attribute set of the Init to RTR request (lines 193-206). -/
def attr_rtr (remote_info : xchg_info) : ibv_qp_attr :=
  { attr_init with
    qp_state := .IBV_QPS_RTR, path_mtu := some .IBV_MTU_2048,
    dest_qp_num := remote_info.qp_num, rq_psn := 0, max_dest_rd_atomic := 1,
    min_rnr_timer := 0x12, ah_is_global := 1, ah_dgid := remote_info.gid,
    ah_sgid_index := 0, ah_hop_limit := 1, ah_dlid := 0, ah_sl := 0,
    ah_src_path_bits := 0, ah_port_num := 1 }

/-- The mask of the Init to RTR request (lines 207-213). -/
def mask_rtr : List ibv_qp_attr_mask :=
  [.IBV_QP_STATE, .IBV_QP_PATH_MTU, .IBV_QP_DEST_QPN, .IBV_QP_RQ_PSN,
   .IBV_QP_MAX_DEST_RD_ATOMIC, .IBV_QP_MIN_RNR_TIMER, .IBV_QP_AV]

/-- The attribute set of the RTR to RTS request (lines 219-224). -/
def attr_rts (remote_info : xchg_info) : ibv_qp_attr :=
  { attr_rtr remote_info with
    qp_state := .IBV_QPS_RTS, sq_psn := 0, timeout := 0x12, retry_cnt := 6,
    rnr_retry := 7, max_rd_atomic := 1 }

/-- The mask of the RTR to RTS request (lines 225-230). -/
def mask_rts : List ibv_qp_attr_mask :=
  [.IBV_QP_STATE, .IBV_QP_SQ_PSN, .IBV_QP_TIMEOUT, .IBV_QP_RETRY_CNT,
   .IBV_QP_RNR_RETRY, .IBV_QP_MAX_QP_RD_ATOMIC]

/-- Lines 237-327: the data plane of the build variant. -/
def transfer (role : Role) (w : World) (mr : ibv_mr) (remote_info : xchg_info)
    (fuel : Nat) : Traced Outcome :=
  match role with
  | .server => transfer_server w mr fuel
  | .client => transfer_client w mr remote_info fuel

/-- Lines 168-235, then the data plane: `ibv_query_port` and the requests
Reset to Init, Init to RTR and, in the client build, RTR to RTS. -/
def arm_qp (role : Role) (w : World) (mr : ibv_mr) (remote_info : xchg_info)
    (fuel : Nat) : Traced Outcome :=
  .after [.ibv_query_port w.query_port] <|
  if w.query_port ≠ 0 then failed_trans w.query_port else
  .after [.ibv_modify_qp attr_init mask_init (w.modify_qp 0)] <|
  if w.modify_qp 0 ≠ 0 then failed_trans (w.modify_qp 0) else
  .after [.ibv_modify_qp (attr_rtr remote_info) mask_rtr (w.modify_qp 1)] <|
  if w.modify_qp 1 ≠ 0 then failed_trans (w.modify_qp 1) else
  match role with
  | .server => transfer .server w mr remote_info fuel
  | .client =>
    .after [.ibv_modify_qp (attr_rts remote_info) mask_rts (w.modify_qp 2)] <|
    if w.modify_qp 2 ≠ 0 then failed_trans (w.modify_qp 2) else
    transfer .client w mr remote_info fuel

/-- The descriptor `local_info` of lines 157-161. -/
def local_info (w : World) (mr : ibv_mr) (qp_num : Nat) : xchg_info :=
  { mrkey := mr.lkey, qp_num := qp_num, gid := w.gid }

/-- Lines 149-166, then the state machine: `ibv_query_gid` and the
rendezvous. -/
def rendezvous (role : Role) (w : World) (mr : ibv_mr) (qp_num : Nat) (fuel : Nat) :
    Traced Outcome :=
  .after [.ibv_query_gid w.query_gid] <|
  if w.query_gid ≠ 0 then failed_trans w.query_gid else
  let x := exchange_info role w.sock w.remote_info0 (local_info w mr qp_num)
  .after x.trace <|
  if x.val.1 ≠ 0 then failed_trans x.val.1 else
  arm_qp role w mr x.val.2 fuel

/-- Lines 123-147, then the rendezvous: the completion queue and the queue
pair, for an open device and a registered region. -/
def create_queues (role : Role) (w : World) (mr : ibv_mr) (fuel : Nat) : Traced Outcome :=
  .after [.ibv_create_cq QUEUESZ w.create_cq] <|
  if !w.create_cq then failed_cq (-1) else
  match int_div w.max_qp_wr w.ndev with
  | none => ⟨[], .undefined⟩
  | some q =>
    match w.create_qp with
    | none => .after [.ibv_create_qp (to_uint32 q) (to_uint32 q) false] (failed_qp (-1))
    | some qp_num =>
      .after [.ibv_create_qp (to_uint32 q) (to_uint32 q) true] <|
      rendezvous role w mr qp_num fuel

/-- The access flags of the registration (line 115). -/
def mr_access : List ibv_access_flags :=
  [.IBV_ACCESS_LOCAL_WRITE, .IBV_ACCESS_REMOTE_READ, .IBV_ACCESS_REMOTE_WRITE]

/-- Lines 96-121, then the queues: device attributes, the pinned buffer, the
protection domain and the memory region, for an open device. -/
def acquire (role : Role) (w : World) (fuel : Nat) : Traced Outcome :=
  .after [.ibv_query_device w.query_device] <|
  if w.query_device ≠ 0 then failed_pd (-1) else
  .after [.mmap BUFADDR BUFSZ w.mmap] <|
  if !w.mmap then failed_pd (-1) else
  .after [.ibv_alloc_pd w.alloc_pd] <|
  if !w.alloc_pd then failed_pd (-1) else
  match w.reg_mr with
  | none => .after [.ibv_reg_mr BUFSZ mr_access false] (failed_mr (-1))
  | some mr =>
    .after [.ibv_reg_mr BUFSZ mr_access true] <|
    create_queues role w mr fuel

/-- The function `main` (lines 68-343) of the build variant `role`, run in
the world `w` with at most `fuel` iterations of each polling loop. -/
def main (role : Role) (w : World) (fuel : Nat) : Traced Outcome :=
  .after [.ibv_get_device_list w.get_device_list] <|
  if !w.get_device_list then ⟨[], .returned (-1)⟩ else
  match find_device w w.ndev.toNat 0 with
  | none => failed_ctx (-1)
  | some i =>
    .after [.ibv_open_device i (w.open_device i)] <|
    if !w.open_device i then failed_ctx (-1) else
    acquire role w fuel

/-! ## Reading traces -/

/-- The resources `main` acquires. -/
inductive Resource
  | dev_list
  | ctx
  | buf
  | pd
  | mr
  | cq
  | qp
  deriving DecidableEq

/-- The resource a call acquired, when it is an acquisition that succeeded. -/
def acquired : Event → Option Resource
  | .ibv_get_device_list true => some .dev_list
  | .ibv_open_device _ true => some .ctx
  | .mmap _ _ true => some .buf
  | .ibv_alloc_pd true => some .pd
  | .ibv_reg_mr _ _ true => some .mr
  | .ibv_create_cq _ true => some .cq
  | .ibv_create_qp _ _ true => some .qp
  | _ => none

/-- The resource a call releases, when it is a release. -/
def released : Event → Option Resource
  | .ibv_free_device_list => some .dev_list
  | .ibv_close_device => some .ctx
  | .munmap => some .buf
  | .ibv_dealloc_pd => some .pd
  | .ibv_dereg_mr => some .mr
  | .ibv_destroy_cq => some .cq
  | .ibv_destroy_qp => some .qp
  | _ => none

/-- The resources acquired along a trace, in order. -/
def acquisitions (tr : List Event) : List Resource := tr.filterMap acquired

/-- The resources released along a trace, in order. -/
def releases (tr : List Event) : List Resource := tr.filterMap released

/-- The `ibv_modify_qp` calls of a trace, in order: attributes, mask, result. -/
def modify_calls (tr : List Event) : List (ibv_qp_attr × List ibv_qp_attr_mask × Int) :=
  tr.filterMap fun e =>
    match e with
    | .ibv_modify_qp a m r => some (a, m, r)
    | _ => none

/-- The `read` and `write` calls of a trace, in order. -/
def stream_calls (tr : List Event) : List Event :=
  tr.filter fun e =>
    match e with
    | .read _ _ _ => true
    | .write _ _ _ => true
    | _ => false

/-- The depth asked of `ibv_create_cq`, when the trace has the call. -/
def cq_depth (tr : List Event) : Option Nat :=
  tr.findSome? fun e =>
    match e with
    | .ibv_create_cq cqe _ => some cqe
    | _ => none

/-- The send and receive capacities asked of `ibv_create_qp`, when the trace
has the call. -/
def qp_caps (tr : List Event) : Option (Nat × Nat) :=
  tr.findSome? fun e =>
    match e with
    | .ibv_create_qp s r _ => some (s, r)
    | _ => none

/-- The `rkey` fields of the work requests posted with `ibv_post_send`. -/
def posted_rkeys (tr : List Event) : List Nat :=
  tr.filterMap fun e =>
    match e with
    | .ibv_post_send wr _ => some wr.rkey
    | _ => none

/-- The byte strings handed to `write`. -/
def written (tr : List Event) : List (List Nat) :=
  tr.filterMap fun e =>
    match e with
    | .write d _ _ => some d
    | _ => none

/-- Calls that acquire nothing, release nothing and touch no queue: the
socket calls of the rendezvous and what the polling loops do. -/
def passive : Event → Bool
  | .socket _ => true
  | .gethostbyname _ => true
  | .bind _ => true
  | .listen _ => true
  | .accept _ => true
  | .connect _ => true
  | .read _ _ _ => true
  | .write _ _ _ => true
  | .close_comm => true
  | .close_sock => true
  | .ibv_poll_cq _ _ => true
  | .sleep _ => true
  | .fprintf_buf _ => true
  | _ => false

/-- The order in which `main` acquires its resources. -/
def acquisition_order : List Resource := [.dev_list, .ctx, .buf, .pd, .mr, .cq, .qp]

/-- What a phase of `main` owes when it is entered holding `held` (listed in
release order) with `rest` still to acquire: it never unmaps the buffer, it
acquires along `rest`, and when it returns it has released what it acquired,
the buffer mapping apart, in reverse order and then `held`. -/
def settles (held rest : List Resource) (r : Traced Outcome) : Prop :=
  Event.munmap ∉ r.trace ∧ acquisitions r.trace <+: rest ∧
  ∀ err, r.val = .returned err →
    releases r.trace = ((acquisitions r.trace).filter (fun x => x ≠ .buf)).reverse ++ held

/-! ## Relations between runs -/

/-- The lists of transition requests a run can make: none; a failed Reset to
Init; a granted Reset to Init and a failed Init to RTR; both granted (the
server ends there); both granted and then the RTR to RTS request of the
client, whatever its result. -/
def modify_shape (role : Role) (ms : List (ibv_qp_attr × List ibv_qp_attr_mask × Int)) : Prop :=
  ms = [] ∨
  (∃ r, r ≠ 0 ∧ ms = [(attr_init, mask_init, r)]) ∨
  (∃ ri r, r ≠ 0 ∧ ms = [(attr_init, mask_init, 0), (attr_rtr ri, mask_rtr, r)]) ∨
  (∃ ri, role = .server ∧ ms = [(attr_init, mask_init, 0), (attr_rtr ri, mask_rtr, 0)]) ∨
  (∃ ri r, role = .client ∧
    ms = [(attr_init, mask_init, 0), (attr_rtr ri, mask_rtr, 0), (attr_rts ri, mask_rts, r)])

/-- Two worlds that answer every call before the data plane alike. -/
def same_setup (w1 w2 : World) : Prop :=
  w1.IBV_SYSFS_NAME_MAX = w2.IBV_SYSFS_NAME_MAX ∧ w1.get_device_list = w2.get_device_list ∧
  w1.ndev = w2.ndev ∧ w1.dev_name = w2.dev_name ∧ w1.open_device = w2.open_device ∧
  w1.query_device = w2.query_device ∧ w1.max_qp_wr = w2.max_qp_wr ∧ w1.mmap = w2.mmap ∧
  w1.alloc_pd = w2.alloc_pd ∧ w1.reg_mr = w2.reg_mr ∧ w1.create_cq = w2.create_cq ∧
  w1.create_qp = w2.create_qp ∧ w1.query_gid = w2.query_gid ∧ w1.gid = w2.gid ∧
  w1.sock = w2.sock ∧ w1.remote_info0 = w2.remote_info0 ∧ w1.query_port = w2.query_port ∧
  w1.modify_qp = w2.modify_qp

/-- The event with the printed buffer content blanked. -/
def erase_buf : Event → Event
  | .fprintf_buf _ => .fprintf_buf ""
  | e => e

/-- The world `w` with the buffer contents replaced by `b`. -/
def World.with_buf (w : World) (b : Nat → String) : World := { w with buf := b }

/-- Two runs end alike and make the same calls, the printed buffer contents
apart. -/
def same_polls (a b : Traced Outcome) : Prop :=
  a.val = b.val ∧ a.trace.map erase_buf = b.trace.map erase_buf

/-! ## Success of the steps -/

/-- Every socket call `exchange_info` makes in the build variant `role`
reports success. -/
def sock_calls_ok (role : Role) (s : SockWorld) : Prop :=
  0 ≤ s.socket ∧ s.gethostbyname = true ∧
  (match role with
   | .server => 0 ≤ s.bind ∧ 0 ≤ s.listen ∧ 0 ≤ s.accept
   | .client => 0 ≤ s.connect) ∧
  s.read ≠ none ∧ 0 ≤ s.write

/-- The selection loop finds a device and `ibv_open_device` opens it. -/
def device_opened (w : World) : Prop :=
  ∃ i, find_device w w.ndev.toNat 0 = some i ∧ w.open_device i = true

/-- Both posts of the build variant succeed. -/
def posts_ok (role : Role) (w : World) : Prop :=
  match role with
  | .server => w.post_recv 0 = 0 ∧ w.post_recv 1 = 0
  | .client => w.post_send 0 = 0 ∧ w.post_send 1 = 0

/-- Every acquisition, the rendezvous, every state transition and every post
of the build variant `role` succeeds in the world `w`. -/
def all_steps_ok (role : Role) (w : World) : Prop :=
  w.get_device_list = true ∧ device_opened w ∧ w.query_device = 0 ∧ w.mmap = true ∧
  w.alloc_pd = true ∧ w.reg_mr ≠ none ∧ w.create_cq = true ∧ w.create_qp ≠ none ∧
  w.query_gid = 0 ∧
  (∀ remote loc, (exchange_info role w.sock remote loc).val.1 = 0) ∧
  w.query_port = 0 ∧ w.modify_qp 0 = 0 ∧ w.modify_qp 1 = 0 ∧
  (role = .client → w.modify_qp 2 = 0) ∧ posts_ok role w

/-- Every step before the data plane succeeds: the acquisitions, the
rendezvous and the state transitions of the build variant `role`. -/
def setup_ok (role : Role) (w : World) : Prop :=
  w.get_device_list = true ∧ device_opened w ∧ w.query_device = 0 ∧ w.mmap = true ∧
  w.alloc_pd = true ∧ w.reg_mr ≠ none ∧ w.create_cq = true ∧ w.create_qp ≠ none ∧
  w.query_gid = 0 ∧
  (∀ remote loc, (exchange_info role w.sock remote loc).val.1 = 0) ∧
  w.query_port = 0 ∧ w.modify_qp 0 = 0 ∧ w.modify_qp 1 = 0 ∧
  (role = .client → w.modify_qp 2 = 0)

/-- The `n` polls from number `k` on all return zero. -/
def zero_polls (w : World) (k n : Nat) : Prop :=
  ∀ j, j < n → (w.poll_cq (k + j)).1 = 0

/-- The data plane of the build variant `role` is inside a polling loop after
`fuel` iterations of it.  The server has posted both receive requests and its
first `fuel` polls return zero.  The client has posted the remote read and
either its first `fuel` polls return zero, or the poll number `j` is the
first to return non-zero, the remote write was posted, and the `fuel` polls
that follow return zero. -/
def waiting (role : Role) (w : World) (fuel : Nat) : Prop :=
  match role with
  | .server => w.post_recv 0 = 0 ∧ w.post_recv 1 = 0 ∧ zero_polls w 0 fuel
  | .client =>
    w.post_send 0 = 0 ∧
    (zero_polls w 0 fuel ∨
      ∃ j, j < fuel ∧ zero_polls w 0 j ∧ (w.poll_cq j).1 ≠ 0 ∧ w.post_send 1 = 0 ∧
        zero_polls w (j + 1) fuel)

/-- The resources whose acquisition succeeds in the world `w`, in the order of
the program, up to the first step that fails. -/
def acquirable (w : World) : List Resource :=
  if !w.get_device_list then [] else
  .dev_list ::
  match find_device w w.ndev.toNat 0 with
  | none => []
  | some i =>
    if !w.open_device i then [] else
    .ctx ::
    if w.query_device ≠ 0 then [] else
    if !w.mmap then [] else
    .buf ::
    if !w.alloc_pd then [] else
    .pd ::
    if w.reg_mr = none then [] else
    .mr ::
    if !w.create_cq then [] else
    .cq ::
    if w.create_qp = none then [] else [.qp]

/-- Every polling loop, wherever it starts, gets a non-zero answer. -/
def polls_deliver (w : World) : Prop :=
  ∀ k, ∃ j, (w.poll_cq (k + j)).1 ≠ 0

/-- A stream that carries what each side writes to the other side in full:
both writes return the record size and each read finds the image of the
descriptor the peer wrote. -/
def reliable_stream (ss sc : SockWorld) (ls lc : xchg_info) : Prop :=
  ss.write = XCHG_SIZE ∧ sc.write = XCHG_SIZE ∧
  ss.read = some lc.toBytes ∧ sc.read = some ls.toBytes

/-! ## Sample worlds -/

/-- A socket layer in which every call succeeds and the peer descriptor
`peer` arrives in full. -/
def sock_ok (peer : xchg_info) : SockWorld :=
  { socket := 3, gethostbyname := true, bind := 0, listen := 0, accept := 4,
    connect := 0, read := some peer.toBytes, write := 24 }

/-- A sample global identifier. -/
def gid_a : List Nat := [0xfe, 0x80, 0, 0, 0, 0, 0, 0, 0, 0, 0, 0, 0, 0, 0, 1]

/-- A sample global identifier. -/
def gid_b : List Nat := [0xfe, 0x80, 0, 0, 0, 0, 0, 0, 0, 0, 0, 0, 0, 0, 0, 2]

/-- A sample peer descriptor. -/
def peer_a : xchg_info := { mrkey := 0x5555, qp_num := 7, gid := gid_a }

/-- A world in which every step succeeds: two devices, the second one named
`mlx5_3`, and every poll delivers a successful completion at once. -/
def world_ok : World :=
  { IBV_SYSFS_NAME_MAX := 64
    get_device_list := true
    ndev := 2
    dev_name := fun i => if i = 1 then "mlx5_3" else "mlx5_0"
    open_device := fun _ => true
    query_device := 0
    max_qp_wr := 32768
    mmap := true
    alloc_pd := true
    reg_mr := some { lkey := 0x1111, rkey := 0x2222 }
    create_cq := true
    create_qp := some 9
    query_gid := 0
    gid := gid_b
    sock := sock_ok peer_a
    remote_info0 := { mrkey := 0, qp_num := 0, gid := List.replicate 16 0 }
    query_port := 0
    modify_qp := fun _ => 0
    post_recv := fun _ => 0
    post_send := fun _ => 0
    poll_cq := fun _ => (1, .success)
    buf := fun _ => "client" }

/-- As `world_ok`, but `ibv_alloc_pd` fails. -/
def world_no_pd : World := { world_ok with alloc_pd := false }

/-- As `world_ok`, but the peer closed the stream: `read` returns 0. -/
def world_short_read : World :=
  { world_ok with sock := { sock_ok peer_a with read := some [] } }

/-- As `world_ok`, but no poll ever returns a completion, while the buffer
shows `client` all along. -/
def world_no_completion : World := { world_ok with poll_cq := fun _ => (0, .success) }

/-- As `world_ok`, but with one device, named `mlx5_3`, that allows 50000
outstanding work requests. -/
def world_big_qp : World :=
  { world_ok with ndev := 1, dev_name := fun _ => "mlx5_3", max_qp_wr := 50000 }

/-- As `world_ok`, but the device list is empty. -/
def world_empty : World := { world_ok with ndev := 0 }

/-- The descriptor the server of `world_ok` sends. -/
def server_descriptor : xchg_info := { mrkey := 0x1111, qp_num := 9, gid := gid_b }

/-- A client world whose stream delivers what the server of `world_ok` wrote. -/
def world_client_of_ok : World :=
  { world_ok with
    reg_mr := some { lkey := 0x3333, rkey := 0x4444 }
    sock := sock_ok server_descriptor }

/-! ## Traces of the phases -/

@[simp] theorem after_trace {α : Type} (es : List Event) (r : Traced α) :
    (Traced.after es r).trace = es ++ r.trace := rfl

@[simp] theorem after_val {α : Type} (es : List Event) (r : Traced α) :
    (Traced.after es r).val = r.val := rfl

theorem client_wait_passive (w : World) : ∀ fuel k e, e ∈ (client_wait w fuel k).1 → passive e = true := by
  intro fuel
  induction fuel with
  | zero => intro k e h; simp [client_wait] at h
  | succ n ih =>
    intro k e h
    unfold client_wait at h
    by_cases hp : (w.poll_cq k).1 = 0
    · simp [hp] at h
      rcases h with h | h
      · subst h; rfl
      · exact ih _ _ h
    · simp [hp] at h
      subst h; rfl

theorem server_wait_passive (w : World) : ∀ fuel k e, e ∈ (server_wait w fuel k).1 → passive e = true := by
  intro fuel
  induction fuel with
  | zero => intro k e h; simp [server_wait] at h
  | succ n ih =>
    intro k e h
    unfold server_wait at h
    by_cases hp : (w.poll_cq k).1 = 0
    · simp [hp] at h
      rcases h with h | h | h | h
      · subst h; rfl
      · subst h; rfl
      · subst h; rfl
      · exact ih _ _ h
    · simp [hp] at h
      rcases h with h | h | h
      · subst h; rfl
      · subst h; rfl
      · subst h; rfl

theorem exchange_info_passive (role : Role) (s : SockWorld) (remote loc : xchg_info) :
    ∀ e, e ∈ (exchange_info role s remote loc).trace → passive e = true := by
  intro e h
  unfold exchange_info exchange_info_listener exchange_info_initiator at h
  cases role <;> simp only [after_trace] at h <;> 
    (repeat' split at h) <;> simp at h <;> 
    (try (rcases h with h | h | h | h | h | h | h | h | h)) <;> (try subst h) <;> (try rfl)
  

theorem acquired_passive (e : Event) (h : passive e = true) : acquired e = none := by
  cases e <;> simp_all [passive, acquired]

theorem released_passive (e : Event) (h : passive e = true) : released e = none := by
  cases e <;> simp_all [passive, released]

theorem acquisitions_append (a b : List Event) :
    acquisitions (a ++ b) = acquisitions a ++ acquisitions b := by
  simp [acquisitions]

theorem releases_append (a b : List Event) :
    releases (a ++ b) = releases a ++ releases b := by
  simp [releases]

theorem acquisitions_quiet (tr : List Event) (h : ∀ e, e ∈ tr → acquired e = none) :
    acquisitions tr = [] := by
  unfold acquisitions
  rw [List.filterMap_eq_nil_iff]
  exact h

theorem releases_quiet (tr : List Event) (h : ∀ e, e ∈ tr → released e = none) :
    releases tr = [] := by
  unfold releases
  rw [List.filterMap_eq_nil_iff]
  exact h

theorem munmap_not_quiet (tr : List Event) (h : ∀ e, e ∈ tr → released e = none) :
    Event.munmap ∉ tr := by
  intro hm
  have := h _ hm
  simp [released] at this


theorem settles_quiet_after (held rest : List Resource) (tr : List Event) (r : Traced Outcome)
    (ha : ∀ e, e ∈ tr → acquired e = none) (hr : ∀ e, e ∈ tr → released e = none)
    (h : settles held rest r) : settles held rest (Traced.after tr r) := by
  obtain ⟨h1, h2, h3⟩ := h
  refine ⟨?_, ?_, ?_⟩
  · simp only [after_trace, List.mem_append, not_or]
    exact ⟨munmap_not_quiet tr hr, h1⟩
  · simpa [acquisitions_append, acquisitions_quiet tr ha] using h2
  · intro err he
    simpa [acquisitions_append, releases_append, acquisitions_quiet tr ha,
      releases_quiet tr hr] using h3 err he

theorem settles_acquire (held rest : List Resource) (e : Event) (x : Resource)
    (r : Traced Outcome) (ha : acquired e = some x) (hr : released e = none) (hx : x ≠ .buf)
    (h : settles (x :: held) rest r) : settles held (x :: rest) (Traced.after [e] r) := by
  obtain ⟨h1, h2, h3⟩ := h
  have hacq : acquisitions (e :: r.trace) = x :: acquisitions r.trace := by
    simp [acquisitions, List.filterMap_cons, ha]
  have hrel : releases (e :: r.trace) = releases r.trace := by
    simp [releases, List.filterMap_cons, hr]
  refine ⟨?_, ?_, ?_⟩
  · simp only [after_trace, List.singleton_append, List.mem_cons, not_or]
    refine ⟨?_, h1⟩
    intro hm
    subst hm
    simp [released] at hr
  · simp only [after_trace, List.singleton_append, hacq]
    exact (List.prefix_cons_inj x).2 h2
  · intro err he
    simp only [after_trace, List.singleton_append, hacq, hrel]
    rw [h3 err he]
    simp [List.filter_cons, hx]

theorem settles_acquire_buf (held rest : List Resource) (e : Event)
    (r : Traced Outcome) (ha : acquired e = some .buf) (hr : released e = none)
    (h : settles held rest r) : settles held (.buf :: rest) (Traced.after [e] r) := by
  obtain ⟨h1, h2, h3⟩ := h
  have hacq : acquisitions (e :: r.trace) = .buf :: acquisitions r.trace := by
    simp [acquisitions, List.filterMap_cons, ha]
  have hrel : releases (e :: r.trace) = releases r.trace := by
    simp [releases, List.filterMap_cons, hr]
  refine ⟨?_, ?_, ?_⟩
  · simp only [after_trace, List.singleton_append, List.mem_cons, not_or]
    refine ⟨?_, h1⟩
    intro hm
    subst hm
    simp [released] at hr
  · simp only [after_trace, List.singleton_append, hacq]
    exact (List.prefix_cons_inj _).2 h2
  · intro err he
    simp only [after_trace, List.singleton_append, hacq, hrel]
    rw [h3 err he]
    simp [List.filter_cons]

theorem settles_polling (held rest : List Resource) (tr : List Event)
    (h : ∀ e, e ∈ tr → passive e = true) : settles held rest ⟨tr, .polling⟩ := by
  refine ⟨?_, ?_, ?_⟩
  · exact munmap_not_quiet tr (fun e he => released_passive e (h e he))
  · simp [acquisitions_quiet tr (fun e he => acquired_passive e (h e he))]
  · intro err he
    simp at he

theorem settles_failed_trans (rest : List Resource) (err : Int) :
    settles [.qp, .cq, .mr, .pd, .ctx, .dev_list] rest (failed_trans err) := by
  simp [settles, failed_trans, failed_qp, failed_cq, failed_mr, failed_pd, failed_ctx, releases, acquisitions, released, acquired]

theorem settles_failed_qp (rest : List Resource) (err : Int) :
    settles [.cq, .mr, .pd, .ctx, .dev_list] rest (failed_qp err) := by
  simp [settles, failed_qp, failed_cq, failed_mr, failed_pd, failed_ctx, releases, acquisitions, released, acquired]

theorem settles_failed_cq (rest : List Resource) (err : Int) :
    settles [.mr, .pd, .ctx, .dev_list] rest (failed_cq err) := by
  simp [settles, failed_cq, failed_mr, failed_pd, failed_ctx, releases, acquisitions, released, acquired]

theorem settles_failed_mr (rest : List Resource) (err : Int) :
    settles [.pd, .ctx, .dev_list] rest (failed_mr err) := by
  simp [settles, failed_mr, failed_pd, failed_ctx, releases, acquisitions, released, acquired]

theorem settles_failed_pd (rest : List Resource) (err : Int) :
    settles [.ctx, .dev_list] rest (failed_pd err) := by
  simp [settles, failed_pd, failed_ctx, releases, acquisitions, released, acquired]

theorem settles_failed_ctx (rest : List Resource) (err : Int) :
    settles [.dev_list] rest (failed_ctx err) := by
  simp [settles, failed_ctx, releases, acquisitions, released, acquired]

theorem settles_transfer_server (w : World) (mr : ibv_mr) (fuel : Nat) (rest : List Resource) :
    settles [.qp, .cq, .mr, .pd, .ctx, .dev_list] rest (transfer_server w mr fuel) := by
  unfold transfer_server
  simp only []
  apply settles_quiet_after _ _ _ _ (by simp [acquired]) (by simp [released])
  split
  · exact settles_failed_trans _ _
  apply settles_quiet_after _ _ _ _ (by simp [acquired]) (by simp [released])
  split
  · exact settles_failed_trans _ _
  have hp := server_wait_passive w fuel 0
  split
  · next tr heq =>
    rw [heq] at hp
    exact settles_polling _ _ _ hp
  · next tr k status heq =>
    rw [heq] at hp
    apply settles_quiet_after
    · intro e he
      simp only [List.mem_append, List.mem_cons, List.mem_singleton, List.not_mem_nil, or_false] at he
      rcases he with he | he | he
      · exact acquired_passive e (hp e he)
      · subst he; rfl
      · subst he; rfl
    · intro e he
      simp only [List.mem_append, List.mem_cons, List.mem_singleton, List.not_mem_nil, or_false] at he
      rcases he with he | he | he
      · exact released_passive e (hp e he)
      · subst he; rfl
      · subst he; rfl
    · exact settles_failed_trans _ _


theorem after_append {α : Type} (a b : List Event) (r : Traced α) :
    Traced.after (a ++ b) r = Traced.after a (Traced.after b r) := by
  simp [Traced.after, List.append_assoc]

theorem settles_passive_after (held rest : List Resource) (tr : List Event) (r : Traced Outcome)
    (hp : ∀ e, e ∈ tr → passive e = true)
    (h : settles held rest r) : settles held rest (Traced.after tr r) :=
  settles_quiet_after held rest tr r (fun e he => acquired_passive e (hp e he))
    (fun e he => released_passive e (hp e he)) h

theorem settles_transfer_client (w : World) (mr : ibv_mr) (ri : xchg_info) (fuel : Nat)
    (rest : List Resource) :
    settles [.qp, .cq, .mr, .pd, .ctx, .dev_list] rest (transfer_client w mr ri fuel) := by
  unfold transfer_client
  simp only []
  apply settles_quiet_after _ _ _ _ (by simp [acquired]) (by simp [released])
  split
  · exact settles_failed_trans _ _
  have hp := client_wait_passive w fuel 0
  split
  · next tr heq =>
    rw [heq] at hp
    exact settles_polling _ _ _ hp
  · next tr k status heq =>
    rw [heq] at hp
    rw [after_append]
    apply settles_passive_after _ _ _ _ hp
    apply settles_quiet_after _ _ _ _ (by simp [acquired]) (by simp [released])
    split
    · exact settles_failed_trans _ _
    have hq := client_wait_passive w fuel k
    split
    · next tr2 heq2 =>
      rw [heq2] at hq
      exact settles_polling _ _ _ hq
    · next tr2 k2 status2 heq2 =>
      rw [heq2] at hq
      rw [after_append]
      apply settles_passive_after _ _ _ _ hq
      apply settles_quiet_after _ _ _ _ (by simp [acquired]) (by simp [released])
      exact settles_failed_trans _ _

theorem settles_transfer (role : Role) (w : World) (mr : ibv_mr) (ri : xchg_info) (fuel : Nat)
    (rest : List Resource) :
    settles [.qp, .cq, .mr, .pd, .ctx, .dev_list] rest (transfer role w mr ri fuel) := by
  cases role
  · exact settles_transfer_server w mr fuel rest
  · exact settles_transfer_client w mr ri fuel rest

theorem settles_arm_qp (role : Role) (w : World) (mr : ibv_mr) (ri : xchg_info) (fuel : Nat)
    (rest : List Resource) :
    settles [.qp, .cq, .mr, .pd, .ctx, .dev_list] rest (arm_qp role w mr ri fuel) := by
  unfold arm_qp
  apply settles_quiet_after _ _ _ _ (by simp [acquired]) (by simp [released])
  split
  · exact settles_failed_trans _ _
  apply settles_quiet_after _ _ _ _ (by simp [acquired]) (by simp [released])
  split
  · exact settles_failed_trans _ _
  apply settles_quiet_after _ _ _ _ (by simp [acquired]) (by simp [released])
  split
  · exact settles_failed_trans _ _
  cases role
  · exact settles_transfer _ _ _ _ _ _
  · simp only []
    apply settles_quiet_after _ _ _ _ (by simp [acquired]) (by simp [released])
    split
    · exact settles_failed_trans _ _
    · exact settles_transfer _ _ _ _ _ _

theorem settles_rendezvous (role : Role) (w : World) (mr : ibv_mr) (qp_num : Nat) (fuel : Nat)
    (rest : List Resource) :
    settles [.qp, .cq, .mr, .pd, .ctx, .dev_list] rest (rendezvous role w mr qp_num fuel) := by
  unfold rendezvous
  apply settles_quiet_after _ _ _ _ (by simp [acquired]) (by simp [released])
  split
  · exact settles_failed_trans _ _
  simp only []
  apply settles_passive_after _ _ _ _ (exchange_info_passive _ _ _ _)
  split
  · exact settles_failed_trans _ _
  · exact settles_arm_qp _ _ _ _ _ _

theorem settles_create_queues (role : Role) (w : World) (mr : ibv_mr) (fuel : Nat) :
    settles [.mr, .pd, .ctx, .dev_list] [.cq, .qp] (create_queues role w mr fuel) := by
  unfold create_queues
  cases hcq : w.create_cq
  · simp only [Bool.not_false, if_true]
    apply settles_quiet_after _ _ _ _ (by simp [acquired]) (by simp [released])
    exact settles_failed_cq _ _
  · simp only [Bool.not_true, Bool.false_eq_true, if_false]
    apply settles_acquire _ _ _ .cq _ (by rfl) (by rfl) (by decide)
    split
    · simp [settles, acquisitions]
    · split
      · apply settles_quiet_after _ _ _ _ (by simp [acquired]) (by simp [released])
        exact settles_failed_qp _ _
      · apply settles_acquire _ _ _ .qp _ (by rfl) (by rfl) (by decide)
        exact settles_rendezvous _ _ _ _ _ _

theorem settles_acquire_phase (role : Role) (w : World) (fuel : Nat) :
    settles [.ctx, .dev_list] [.buf, .pd, .mr, .cq, .qp] (acquire role w fuel) := by
  unfold acquire
  apply settles_quiet_after _ _ _ _ (by simp [acquired]) (by simp [released])
  split
  · exact settles_failed_pd _ _
  cases hm : w.mmap
  · simp only [Bool.not_false, if_true]
    apply settles_quiet_after _ _ _ _ (by simp [acquired]) (by simp [released])
    exact settles_failed_pd _ _
  simp only [Bool.not_true, Bool.false_eq_true, if_false]
  apply settles_acquire_buf _ _ _ _ (by rfl) (by rfl)
  cases hpd : w.alloc_pd
  · simp only [Bool.not_false, if_true]
    apply settles_quiet_after _ _ _ _ (by simp [acquired]) (by simp [released])
    exact settles_failed_pd _ _
  simp only [Bool.not_true, Bool.false_eq_true, if_false]
  apply settles_acquire _ _ _ .pd _ (by rfl) (by rfl) (by decide)
  split
  · apply settles_quiet_after _ _ _ _ (by simp [acquired]) (by simp [released])
    exact settles_failed_mr _ _
  · apply settles_acquire _ _ _ .mr _ (by rfl) (by rfl) (by decide)
    exact settles_create_queues _ _ _ _

theorem settles_main (role : Role) (w : World) (fuel : Nat) :
    settles [] acquisition_order (main role w fuel) := by
  unfold main acquisition_order
  cases hl : w.get_device_list
  · simp only [Bool.not_false, if_true]
    apply settles_quiet_after _ _ _ _ (by simp [acquired]) (by simp [released])
    simp [settles, acquisitions, releases]
  simp only [Bool.not_true, Bool.false_eq_true, if_false]
  apply settles_acquire _ _ _ .dev_list _ (by rfl) (by rfl) (by decide)
  split
  · exact settles_failed_ctx _ _
  · next i _ =>
    cases ho : w.open_device i
    · simp only [Bool.not_false, if_true]
      apply settles_quiet_after _ _ _ _ (by simp [acquired]) (by simp [released])
      exact settles_failed_ctx _ _
    · simp only [Bool.not_true, Bool.false_eq_true, if_false]
      apply settles_acquire _ _ _ .ctx _ (by rfl) (by rfl) (by decide)
      exact settles_acquire_phase _ _ _

/-! ## Return values of the phases -/


theorem find_device_bounds (w : World) :
    ∀ n i j, find_device w n i = some j → i ≤ j ∧ j < i + n := by
  intro n
  induction n with
  | zero => intro i j h; simp [find_device] at h
  | succ n ih =>
    intro i j h
    unfold find_device at h
    split at h
    · simp at h; omega
    · have := ih _ _ h; omega

theorem find_device_ndev (w : World) (j : Nat) (h : find_device w w.ndev.toNat 0 = some j) :
    1 ≤ w.ndev ∧ (j : Int) < w.ndev := by
  have := find_device_bounds w _ _ _ h
  omega

theorem int_div_pos (a b : Int) (h : 1 ≤ b) : int_div a b = some (Int.tdiv a b) := by
  unfold int_div
  have h1 : b ≠ 0 := by omega
  have h2 : ¬ (a = -2147483648 ∧ b = -1) := by omega
  rw [if_neg h1, if_neg h2]

theorem client_wait_mono (w : World) :
    ∀ fuel k tr r, client_wait w fuel k = (tr, some r) →
      ∀ more, client_wait w (fuel + more) k = (tr, some r) := by
  intro fuel
  induction fuel with
  | zero => intro k tr r h; simp [client_wait] at h
  | succ n ih =>
    intro k tr r h more
    have e : n + 1 + more = (n + more) + 1 := by omega
    rw [e]
    unfold client_wait at h ⊢
    by_cases hp : (w.poll_cq k).1 = 0
    · simp only [hp, if_true] at h ⊢
      simp only [Prod.mk.injEq] at h
      obtain ⟨h1, h2⟩ := h
      have hh : client_wait w n (k + 1) = ((client_wait w n (k + 1)).1, some r) := by
        rw [← h2]
      have := ih _ _ _ hh more
      rw [this]
      simp [← h1]
    · simp only [hp, if_false] at h ⊢
      exact h

theorem client_wait_ends (w : World) :
    ∀ j k, (w.poll_cq (k + j)).1 ≠ 0 → ∃ tr r, client_wait w (j + 1) k = (tr, some r) := by
  intro j
  induction j with
  | zero =>
    intro k h
    simp only [Nat.add_zero] at h
    unfold client_wait
    simp [h]
  | succ n ih =>
    intro k h
    unfold client_wait
    by_cases hp : (w.poll_cq k).1 = 0
    · have e : k + (n + 1) = (k + 1) + n := by omega
      rw [e] at h
      obtain ⟨tr, r, hr⟩ := ih (k + 1) h
      simp [hp, hr]
    · simp [hp]

theorem server_wait_ends (w : World) :
    ∀ j k, (w.poll_cq (k + j)).1 ≠ 0 → ∃ tr r, server_wait w (j + 1) k = (tr, some r) := by
  intro j
  induction j with
  | zero =>
    intro k h
    simp only [Nat.add_zero] at h
    unfold server_wait
    simp [h]
  | succ n ih =>
    intro k h
    unfold server_wait
    by_cases hp : (w.poll_cq k).1 = 0
    · have e : k + (n + 1) = (k + 1) + n := by omega
      rw [e] at h
      obtain ⟨tr, r, hr⟩ := ih (k + 1) h
      simp [hp, hr]
    · simp [hp]


theorem exchange_info_ret (role : Role) (s : SockWorld) (remote loc : xchg_info) :
    (sock_calls_ok role s ∧ (exchange_info role s remote loc).val.1 = 0) ∨
    (¬ sock_calls_ok role s ∧ (exchange_info role s remote loc).val.1 = -1) := by
  unfold exchange_info exchange_info_listener exchange_info_initiator sock_calls_ok read_ret
  cases role <;> cases hr : s.read <;> cases hg : s.gethostbyname <;>
    simp only [after_val] <;> (repeat' split) <;> simp_all <;> omega

theorem exchange_info_ret_zero (role : Role) (s : SockWorld) (remote loc : xchg_info) :
    (exchange_info role s remote loc).val.1 = 0 ↔ sock_calls_ok role s := by
  rcases exchange_info_ret role s remote loc with ⟨h1, h2⟩ | ⟨h1, h2⟩
  · simp [h1, h2]
  · simp [h1, h2]

theorem transfer_returned (role : Role) (w : World) (mr : ibv_mr) (ri : xchg_info) (fuel : Nat)
    (err : Int) (h : (transfer role w mr ri fuel).val = .returned err) :
    (err = 0 ↔ posts_ok role w) := by
  cases role
  · unfold transfer transfer_server at h
    unfold posts_ok
    simp only [after_val] at h
    (repeat' split at h) <;> simp_all [out, failed_trans, failed_qp, failed_cq, failed_mr, failed_pd, failed_ctx] <;> omega
  · unfold transfer transfer_client at h
    unfold posts_ok
    simp only [after_val] at h
    (repeat' split at h) <;> simp_all [out, failed_trans, failed_qp, failed_cq, failed_mr, failed_pd, failed_ctx] <;> omega

theorem transfer_defined (role : Role) (w : World) (mr : ibv_mr) (ri : xchg_info) (fuel : Nat) :
    (transfer role w mr ri fuel).val ≠ .undefined := by
  cases role
  · unfold transfer transfer_server
    simp only [after_val]
    (repeat' split) <;> simp [out, failed_trans, failed_qp, failed_cq, failed_mr, failed_pd, failed_ctx]
  · unfold transfer transfer_client
    simp only [after_val]
    (repeat' split) <;> simp [out, failed_trans, failed_qp, failed_cq, failed_mr, failed_pd, failed_ctx]

theorem transfer_returns (role : Role) (w : World) (mr : ibv_mr) (ri : xchg_info)
    (h : polls_deliver w) : ∃ fuel err, (transfer role w mr ri fuel).val = .returned err := by
  cases role
  · obtain ⟨j, hj⟩ := h 0
    obtain ⟨tr, r, hr⟩ := server_wait_ends w j 0 hj
    refine ⟨j + 1, ?_⟩
    unfold transfer transfer_server
    simp only [after_val, hr]
    (repeat' split) <;> simp [out, failed_trans, failed_qp, failed_cq, failed_mr, failed_pd, failed_ctx]
  · obtain ⟨j, hj⟩ := h 0
    obtain ⟨tr, r, hr⟩ := client_wait_ends w j 0 hj
    obtain ⟨j2, hj2⟩ := h r.1
    obtain ⟨tr2, r2, hr2⟩ := client_wait_ends w j2 r.1 hj2
    have e1 := client_wait_mono w _ _ _ _ hr (j2 + 1)
    have e2 := client_wait_mono w _ _ _ _ hr2 (j + 1)
    rw [Nat.add_comm] at e2
    refine ⟨j + 1 + (j2 + 1), ?_⟩
    unfold transfer transfer_client
    simp only [after_val, e1, e2]
    (repeat' split) <;> simp [out, failed_trans, failed_qp, failed_cq, failed_mr, failed_pd, failed_ctx]


theorem cleanup_vals (err : Int) :
    (failed_ctx err).val = .returned err ∧ (failed_pd err).val = .returned err ∧
    (failed_mr err).val = .returned err ∧ (failed_cq err).val = .returned err ∧
    (failed_qp err).val = .returned err ∧ (failed_trans err).val = .returned err ∧
    (out err).val = .returned err := by
  simp [out, failed_trans, failed_qp, failed_cq, failed_mr, failed_pd, failed_ctx]

theorem arm_qp_val (role : Role) (w : World) (mr : ibv_mr) (ri : xchg_info) :
    (¬ (w.query_port = 0 ∧ w.modify_qp 0 = 0 ∧ w.modify_qp 1 = 0 ∧
        (role = .client → w.modify_qp 2 = 0)) ∧
      ∀ fuel, ∃ err, err ≠ 0 ∧ (arm_qp role w mr ri fuel).val = .returned err) ∨
    ((w.query_port = 0 ∧ w.modify_qp 0 = 0 ∧ w.modify_qp 1 = 0 ∧
        (role = .client → w.modify_qp 2 = 0)) ∧
      ∀ fuel, (arm_qp role w mr ri fuel).val = (transfer role w mr ri fuel).val) := by
  unfold arm_qp
  by_cases h1 : w.query_port = 0
  · by_cases h2 : w.modify_qp 0 = 0
    · by_cases h3 : w.modify_qp 1 = 0
      · cases role
        · simp [h1, h2, h3]
        · by_cases h4 : w.modify_qp 2 = 0
          · simp [h1, h2, h3, h4]
          · simp [h1, h2, h3, h4, cleanup_vals]
      · simp [h1, h2, h3, cleanup_vals]
    · simp [h1, h2, cleanup_vals]
  · simp [h1, cleanup_vals]

theorem rendezvous_val (role : Role) (w : World) (mr : ibv_mr) (qp_num : Nat) :
    (¬ (w.query_gid = 0 ∧ sock_calls_ok role w.sock) ∧
      ∀ fuel, ∃ err, err ≠ 0 ∧ (rendezvous role w mr qp_num fuel).val = .returned err) ∨
    ((w.query_gid = 0 ∧ sock_calls_ok role w.sock) ∧
      ∃ ri, ∀ fuel, (rendezvous role w mr qp_num fuel).val = (arm_qp role w mr ri fuel).val) := by
  unfold rendezvous
  by_cases h1 : w.query_gid = 0
  · rcases exchange_info_ret role w.sock w.remote_info0 (local_info w mr qp_num) with
      ⟨h2, h3⟩ | ⟨h2, h3⟩
    · right
      refine ⟨⟨h1, h2⟩,
        (exchange_info role w.sock w.remote_info0 (local_info w mr qp_num)).val.2, ?_⟩
      intro fuel
      simp only [after_val, h1, h3, ne_eq, not_true_eq_false, if_false]
    · left
      refine ⟨by simp [h2], ?_⟩
      intro fuel
      simp [h1, h3, cleanup_vals]
  · simp [h1, cleanup_vals]

theorem create_queues_val (role : Role) (w : World) (mr : ibv_mr) (hn : 1 ≤ w.ndev) :
    (¬ (w.create_cq = true ∧ w.create_qp ≠ none) ∧
      ∀ fuel, ∃ err, err ≠ 0 ∧ (create_queues role w mr fuel).val = .returned err) ∨
    ((w.create_cq = true ∧ w.create_qp ≠ none) ∧
      ∃ qp_num, ∀ fuel,
        (create_queues role w mr fuel).val = (rendezvous role w mr qp_num fuel).val) := by
  unfold create_queues
  rw [int_div_pos _ _ hn]
  cases h1 : w.create_cq
  · simp [cleanup_vals]
  · cases h2 : w.create_qp
    · simp [cleanup_vals]
    · next q =>
      simp only [Bool.not_true, Bool.false_eq_true, if_false, after_val]
      exact Or.inr ⟨by simp, q, fun _ => rfl⟩

theorem acquire_val (role : Role) (w : World) :
    (¬ (w.query_device = 0 ∧ w.mmap = true ∧ w.alloc_pd = true ∧ w.reg_mr ≠ none) ∧
      ∀ fuel, ∃ err, err ≠ 0 ∧ (acquire role w fuel).val = .returned err) ∨
    ((w.query_device = 0 ∧ w.mmap = true ∧ w.alloc_pd = true ∧ w.reg_mr ≠ none) ∧
      ∃ mr, ∀ fuel, (acquire role w fuel).val = (create_queues role w mr fuel).val) := by
  unfold acquire
  by_cases h1 : w.query_device = 0
  · cases h2 : w.mmap
    · simp [h1, cleanup_vals]
    · cases h3 : w.alloc_pd
      · simp [h1, cleanup_vals]
      · cases h4 : w.reg_mr
        · simp [h1, cleanup_vals]
        · next m =>
          simp only [h1, ne_eq, not_true_eq_false, Bool.not_true, Bool.false_eq_true,
            if_false, after_val]
          exact Or.inr ⟨by simp, m, fun _ => rfl⟩
  · simp [h1, cleanup_vals]

theorem main_val_open (role : Role) (w : World) :
    (¬ (w.get_device_list = true ∧ device_opened w) ∧
      ∀ fuel, ∃ err, err ≠ 0 ∧ (main role w fuel).val = .returned err) ∨
    ((w.get_device_list = true ∧ device_opened w ∧ 1 ≤ w.ndev) ∧
      ∀ fuel, (main role w fuel).val = (acquire role w fuel).val) := by
  unfold main device_opened
  cases h1 : w.get_device_list
  · simp
  · cases h2 : find_device w w.ndev.toNat 0 with
    | none => simp [cleanup_vals]
    | some i =>
      cases h3 : w.open_device i
      · simp [h3, cleanup_vals]
      · have := find_device_ndev w i h2
        simp [h3, this.1]

/-- The value of `main` is fixed by the steps before the data plane when one
of them fails, and is the value of the data plane otherwise. -/
theorem main_val (role : Role) (w : World) :
    (¬ (w.get_device_list = true ∧ device_opened w ∧ w.query_device = 0 ∧ w.mmap = true ∧
        w.alloc_pd = true ∧ w.reg_mr ≠ none ∧ w.create_cq = true ∧ w.create_qp ≠ none ∧
        w.query_gid = 0 ∧ sock_calls_ok role w.sock ∧ w.query_port = 0 ∧
        w.modify_qp 0 = 0 ∧ w.modify_qp 1 = 0 ∧ (role = .client → w.modify_qp 2 = 0)) ∧
      ∀ fuel, ∃ err, err ≠ 0 ∧ (main role w fuel).val = .returned err) ∨
    ((w.get_device_list = true ∧ device_opened w ∧ w.query_device = 0 ∧ w.mmap = true ∧
        w.alloc_pd = true ∧ w.reg_mr ≠ none ∧ w.create_cq = true ∧ w.create_qp ≠ none ∧
        w.query_gid = 0 ∧ sock_calls_ok role w.sock ∧ w.query_port = 0 ∧
        w.modify_qp 0 = 0 ∧ w.modify_qp 1 = 0 ∧ (role = .client → w.modify_qp 2 = 0)) ∧
      ∃ mr ri, ∀ fuel, (main role w fuel).val = (transfer role w mr ri fuel).val) := by
  rcases main_val_open role w with ⟨h1, h2⟩ | ⟨⟨h1a, h1b, hn⟩, h2⟩
  · left
    exact ⟨fun h => h1 ⟨h.1, h.2.1⟩, h2⟩
  rcases acquire_val role w with ⟨h3, h4⟩ | ⟨⟨h3a, h3b, h3c, h3d⟩, mr, h4⟩
  · left
    refine ⟨fun h => h3 ⟨h.2.2.1, h.2.2.2.1, h.2.2.2.2.1, h.2.2.2.2.2.1⟩, ?_⟩
    intro fuel
    rw [h2]
    exact h4 fuel
  rcases create_queues_val role w mr hn with ⟨h5, h6⟩ | ⟨⟨h5a, h5b⟩, qp_num, h6⟩
  · left
    refine ⟨fun h => h5 ⟨h.2.2.2.2.2.2.1, h.2.2.2.2.2.2.2.1⟩, ?_⟩
    intro fuel
    rw [h2, h4]
    exact h6 fuel
  rcases rendezvous_val role w mr qp_num with ⟨h7, h8⟩ | ⟨⟨h7a, h7b⟩, ri, h8⟩
  · left
    refine ⟨fun h => h7 ⟨h.2.2.2.2.2.2.2.2.1, h.2.2.2.2.2.2.2.2.2.1⟩, ?_⟩
    intro fuel
    rw [h2, h4, h6]
    exact h8 fuel
  rcases arm_qp_val role w mr ri with ⟨h9, h10⟩ | ⟨⟨h9a, h9b, h9c, h9d⟩, h10⟩
  · left
    refine ⟨fun h => h9 h.2.2.2.2.2.2.2.2.2.2, ?_⟩
    intro fuel
    rw [h2, h4, h6, h8]
    exact h10 fuel
  right
  refine ⟨⟨h1a, h1b, h3a, h3b, h3c, h3d, h5a, h5b, h7a, h7b, h9a, h9b, h9c, h9d⟩, mr, ri, ?_⟩
  intro fuel
  rw [h2, h4, h6, h8, h10]


theorem int_div_some (a b q : Int) (h : int_div a b = some q) : q = Int.tdiv a b := by
  unfold int_div at h
  split at h
  · simp at h
  · split at h
    · simp at h
    · simp at h; exact h.symm

theorem cleanup_traces (err : Int) :
    (failed_ctx err).trace = [.ibv_free_device_list] ∧
    (failed_pd err).trace = [.ibv_close_device, .ibv_free_device_list] ∧
    (failed_mr err).trace = [.ibv_dealloc_pd, .ibv_close_device, .ibv_free_device_list] ∧
    (failed_cq err).trace =
      [.ibv_dereg_mr, .ibv_dealloc_pd, .ibv_close_device, .ibv_free_device_list] ∧
    (failed_qp err).trace =
      [.ibv_destroy_cq, .ibv_dereg_mr, .ibv_dealloc_pd, .ibv_close_device,
        .ibv_free_device_list] := by
  simp [failed_qp, failed_cq, failed_mr, failed_pd, failed_ctx]

/-- When the trace of `main` has an `ibv_create_qp` call, a device was opened,
the completion queue was asked for with depth `QUEUESZ`, and both capacities
are the quotient `max_qp_wr / ndev` as an unsigned 32 bit value. -/
theorem qp_caps_main (role : Role) (w : World) (fuel : Nat) (s r : Nat)
    (h : qp_caps (main role w fuel).trace = some (s, r)) :
    1 ≤ w.ndev ∧ device_opened w ∧ cq_depth (main role w fuel).trace = some QUEUESZ ∧
    s = to_uint32 (Int.tdiv w.max_qp_wr w.ndev) ∧ r = s := by
  unfold main acquire create_queues at h ⊢
  unfold device_opened
  cases h1 : w.get_device_list
  · simp [h1, qp_caps] at h
  cases h2 : find_device w w.ndev.toNat 0 with
  | none => simp [h1, h2, qp_caps, cleanup_traces] at h
  | some i =>
    have hn := find_device_ndev w i h2
    cases h3 : w.open_device i
    · simp [h1, h2, h3, qp_caps, cleanup_traces] at h
    by_cases h4 : w.query_device = 0
    swap
    · simp [h1, h2, h3, h4, qp_caps, cleanup_traces] at h
    cases h5 : w.mmap
    · simp [h1, h2, h3, h4, h5, qp_caps, cleanup_traces] at h
    cases h6 : w.alloc_pd
    · simp [h1, h2, h3, h4, h5, h6, qp_caps, cleanup_traces] at h
    cases h7 : w.reg_mr with
    | none => simp [h1, h2, h3, h4, h5, h6, h7, qp_caps, cleanup_traces] at h
    | some mr =>
      cases h8 : w.create_cq
      · simp [h1, h2, h3, h4, h5, h6, h7, h8, qp_caps, cleanup_traces] at h
      rw [int_div_pos _ _ hn.1] at h ⊢
      cases h9 : w.create_qp with
      | none =>
        simp [h1, h2, h3, h4, h5, h6, h7, h8, h9, qp_caps, cq_depth, cleanup_traces] at h ⊢
        exact ⟨hn.1, h.1.symm, by rw [← h.1, ← h.2]⟩
      | some q =>
        simp [h1, h2, h3, h4, h5, h6, h7, h8, h9, qp_caps, cq_depth, cleanup_traces] at h ⊢
        exact ⟨hn.1, h.1.symm, by rw [← h.1, ← h.2]⟩

theorem modify_calls_append (a b : List Event) :
    modify_calls (a ++ b) = modify_calls a ++ modify_calls b := by
  simp [modify_calls]

theorem modify_calls_nil : modify_calls [] = [] := rfl

theorem modify_calls_cons (e : Event) (tr : List Event) :
    modify_calls (e :: tr) =
      (match e with
        | .ibv_modify_qp a m r => [(a, m, r)]
        | _ => []) ++ modify_calls tr := by
  cases e <;> simp [modify_calls, List.filterMap_cons]

theorem modify_calls_passive (tr : List Event) (h : ∀ e, e ∈ tr → passive e = true) :
    modify_calls tr = [] := by
  unfold modify_calls
  rw [List.filterMap_eq_nil_iff]
  intro e he
  have := h e he
  cases e <;> simp_all [passive]

theorem modify_calls_cleanup (err : Int) : modify_calls (failed_trans err).trace = [] := by
  simp [modify_calls, failed_trans, failed_qp, failed_cq, failed_mr, failed_pd, failed_ctx]

theorem modify_calls_out (err : Int) : modify_calls (out err).trace = [] :=
  modify_calls_cleanup err

theorem modify_calls_transfer (role : Role) (w : World) (mr : ibv_mr) (ri : xchg_info)
    (fuel : Nat) : modify_calls (transfer role w mr ri fuel).trace = [] := by
  cases role
  · unfold transfer transfer_server
    have hp := modify_calls_passive _ (server_wait_passive w fuel 0)
    simp only [after_trace, modify_calls_append, modify_calls_cons, modify_calls_nil]
    split
    · simp [modify_calls_append, modify_calls_cons, modify_calls_nil, modify_calls_out]
    split
    · simp [modify_calls_append, modify_calls_cons, modify_calls_nil, modify_calls_out]
    split
    · next tr heq =>
      rw [heq] at hp
      simpa using hp
    · next tr k st heq =>
      rw [heq] at hp
      simp at hp
      simp [modify_calls_append, modify_calls_cons, modify_calls_nil, hp, modify_calls_out]
  · unfold transfer transfer_client
    have hp := modify_calls_passive _ (client_wait_passive w fuel 0)
    simp only [after_trace, modify_calls_append, modify_calls_cons, modify_calls_nil]
    split
    · simp [modify_calls_append, modify_calls_cons, modify_calls_nil, modify_calls_out]
    split
    · next tr heq =>
      rw [heq] at hp
      simpa using hp
    · next tr k st heq =>
      rw [heq] at hp
      simp at hp
      have hq := modify_calls_passive _ (client_wait_passive w fuel k)
      simp only [after_trace, modify_calls_append, modify_calls_cons, modify_calls_nil, hp]
      split
      · simp [modify_calls_append, modify_calls_cons, modify_calls_nil, modify_calls_out]
      split
      · next tr2 heq2 =>
        rw [heq2] at hq
        simpa using hq
      · next tr2 k2 st2 heq2 =>
        rw [heq2] at hq
        simp at hq
        simp [modify_calls_append, modify_calls_cons, modify_calls_nil, hq, modify_calls_out]

theorem modify_shape_arm_qp (role : Role) (w : World) (mr : ibv_mr) (ri : xchg_info)
    (fuel : Nat) : modify_shape role (modify_calls (arm_qp role w mr ri fuel).trace) := by
  unfold arm_qp modify_shape
  by_cases h1 : w.query_port = 0
  swap
  · left
    simp [h1, modify_calls_append, modify_calls_cons, modify_calls_nil, modify_calls_cleanup]
  by_cases h2 : w.modify_qp 0 = 0
  swap
  · right; left
    refine ⟨w.modify_qp 0, h2, ?_⟩
    simp [h1, h2, modify_calls_append, modify_calls_cons, modify_calls_nil, modify_calls_cleanup]
  by_cases h3 : w.modify_qp 1 = 0
  swap
  · right; right; left
    refine ⟨ri, w.modify_qp 1, h3, ?_⟩
    simp [h1, h2, h3, modify_calls_append, modify_calls_cons, modify_calls_nil, modify_calls_cleanup]
  cases role
  · right; right; right; left
    refine ⟨ri, rfl, ?_⟩
    simp [h1, h2, h3, modify_calls_append, modify_calls_cons, modify_calls_nil, modify_calls_transfer]
  · right; right; right; right
    refine ⟨ri, w.modify_qp 2, rfl, ?_⟩
    by_cases h4 : w.modify_qp 2 = 0
    · simp [h1, h2, h3, h4, modify_calls_append, modify_calls_cons, modify_calls_nil, modify_calls_transfer]
    · simp [h1, h2, h3, h4, modify_calls_append, modify_calls_cons, modify_calls_nil, modify_calls_cleanup]


theorem modify_shape_rendezvous (role : Role) (w : World) (mr : ibv_mr) (qp_num : Nat)
    (fuel : Nat) : modify_shape role (modify_calls (rendezvous role w mr qp_num fuel).trace) := by
  unfold rendezvous
  have hx := modify_calls_passive _
    (exchange_info_passive role w.sock w.remote_info0 (local_info w mr qp_num))
  simp only [after_trace, modify_calls_append, modify_calls_cons, modify_calls_nil, hx,
    List.nil_append]
  split
  · rw [modify_calls_cleanup]; exact Or.inl rfl
  simp only [after_trace, modify_calls_append, hx, List.nil_append]
  split
  · rw [modify_calls_cleanup]; exact Or.inl rfl
  · exact modify_shape_arm_qp _ _ _ _ _

theorem modify_shape_create_queues (role : Role) (w : World) (mr : ibv_mr) (fuel : Nat) :
    modify_shape role (modify_calls (create_queues role w mr fuel).trace) := by
  unfold create_queues
  simp only [after_trace, modify_calls_append, modify_calls_cons, modify_calls_nil,
    List.nil_append]
  split
  · simp [modify_shape, modify_calls, cleanup_traces]
  split
  · exact Or.inl rfl
  split
  · simp [modify_shape, modify_calls, cleanup_traces]
  · simp only [after_trace, modify_calls_append, modify_calls_cons, modify_calls_nil,
      List.nil_append]
    exact modify_shape_rendezvous _ _ _ _ _

theorem modify_shape_acquire (role : Role) (w : World) (fuel : Nat) :
    modify_shape role (modify_calls (acquire role w fuel).trace) := by
  unfold acquire
  simp only [after_trace, modify_calls_append, modify_calls_cons, modify_calls_nil,
    List.nil_append]
  split
  · simp [modify_shape, modify_calls, cleanup_traces]
  simp only [after_trace, modify_calls_append, modify_calls_cons, modify_calls_nil,
    List.nil_append]
  split
  · simp [modify_shape, modify_calls, cleanup_traces]
  simp only [after_trace, modify_calls_append, modify_calls_cons, modify_calls_nil,
    List.nil_append]
  split
  · simp [modify_shape, modify_calls, cleanup_traces]
  split
  · simp [modify_shape, modify_calls, cleanup_traces]
  · simp only [after_trace, modify_calls_append, modify_calls_cons, modify_calls_nil,
      List.nil_append]
    exact modify_shape_create_queues _ _ _ _

theorem modify_shape_main (role : Role) (w : World) (fuel : Nat) :
    modify_shape role (modify_calls (main role w fuel).trace) := by
  unfold main
  simp only [after_trace, modify_calls_append, modify_calls_cons, modify_calls_nil,
    List.nil_append]
  split
  · exact Or.inl rfl
  split
  · simp [modify_shape, modify_calls, cleanup_traces]
  simp only [after_trace, modify_calls_append, modify_calls_cons, modify_calls_nil,
    List.nil_append]
  split
  · simp [modify_shape, modify_calls, cleanup_traces]
  · exact modify_shape_acquire _ _ _

theorem attr_states (ri : xchg_info) :
    attr_init.qp_state = .IBV_QPS_INIT ∧ (attr_rtr ri).qp_state = .IBV_QPS_RTR ∧
    (attr_rts ri).qp_state = .IBV_QPS_RTS := ⟨rfl, rfl, rfl⟩

/-- The temporal reading of a shaped list of transition requests. -/
theorem modify_shape_order (role : Role) (ms : List (ibv_qp_attr × List ibv_qp_attr_mask × Int))
    (h : modify_shape role ms) (i : Nat) (a : ibv_qp_attr) (m : List ibv_qp_attr_mask)
    (r : Int) (hi : ms[i]? = some (a, m, r)) :
    (a.qp_state = .IBV_QPS_RTR → ∃ j, j < i ∧ ms[j]? = some (attr_init, mask_init, 0)) ∧
    (a.qp_state = .IBV_QPS_RTS →
      ∃ j b, j < i ∧ b.qp_state = .IBV_QPS_RTR ∧ ms[j]? = some (b, mask_rtr, 0)) ∧
    (r ≠ 0 → ms[i + 1]? = none) := by
  rcases h with h | ⟨r1, hr1, h⟩ | ⟨ri, r1, hr1, h⟩ | ⟨ri, _, h⟩ | ⟨ri, r1, _, h⟩
  · subst h; simp at hi
  · subst h
    rcases i with _ | i
    · simp at hi
      obtain ⟨rfl, rfl, rfl⟩ := hi
      simp [attr_init]
    · simp at hi
  · subst h
    rcases i with _ | _ | i
    · simp at hi
      obtain ⟨rfl, rfl, rfl⟩ := hi
      simp [attr_init]
    · simp at hi
      obtain ⟨rfl, rfl, rfl⟩ := hi
      refine ⟨fun _ => ⟨0, by simp⟩, ?_, by simp⟩
      simp [attr_rtr]
    · simp at hi
  · subst h
    rcases i with _ | _ | i
    · simp at hi
      obtain ⟨rfl, rfl, rfl⟩ := hi
      simp [attr_init]
    · simp at hi
      obtain ⟨rfl, rfl, rfl⟩ := hi
      refine ⟨fun _ => ⟨0, by simp⟩, ?_, by simp⟩
      simp [attr_rtr]
    · simp at hi
  · subst h
    rcases i with _ | _ | _ | i
    · simp at hi
      obtain ⟨rfl, rfl, rfl⟩ := hi
      simp [attr_init]
    · simp at hi
      obtain ⟨rfl, rfl, rfl⟩ := hi
      refine ⟨fun _ => ⟨0, by simp⟩, ?_, by simp⟩
      simp [attr_rtr]
    · simp at hi
      obtain ⟨rfl, rfl, rfl⟩ := hi
      refine ⟨?_, fun _ => ⟨1, attr_rtr ri, by simp, rfl, by simp⟩, by simp⟩
      simp [attr_rts]
    · simp at hi


theorem find_device_congr (w1 w2 : World) (h1 : w1.IBV_SYSFS_NAME_MAX = w2.IBV_SYSFS_NAME_MAX)
    (h2 : w1.dev_name = w2.dev_name) : ∀ n i, find_device w1 n i = find_device w2 n i := by
  intro n
  induction n with
  | zero => intro i; rfl
  | succ n ih =>
    intro i
    unfold find_device
    rw [h1, h2, ih]

theorem arm_qp_congr (R : Traced Outcome → Traced Outcome → Prop) (hrefl : ∀ a, R a a)
    (hafter : ∀ es a b, R a b → R (Traced.after es a) (Traced.after es b))
    (role : Role) (w1 w2 : World) (fuel : Nat) (hs : same_setup w1 w2)
    (ht : ∀ mr ri, R (transfer role w1 mr ri fuel) (transfer role w2 mr ri fuel))
    (mr : ibv_mr) (ri : xchg_info) :
    R (arm_qp role w1 mr ri fuel) (arm_qp role w2 mr ri fuel) := by
  obtain ⟨_, _, _, _, _, _, _, _, _, _, _, _, _, _, _, _, a17, a18⟩ := hs
  unfold arm_qp
  rw [a17, a18]
  apply hafter
  split
  · exact hrefl _
  apply hafter
  split
  · exact hrefl _
  apply hafter
  split
  · exact hrefl _
  cases role
  · exact ht _ _
  · simp only []
    apply hafter
    split
    · exact hrefl _
    · exact ht _ _

theorem rendezvous_congr (R : Traced Outcome → Traced Outcome → Prop) (hrefl : ∀ a, R a a)
    (hafter : ∀ es a b, R a b → R (Traced.after es a) (Traced.after es b))
    (role : Role) (w1 w2 : World) (fuel : Nat) (hs : same_setup w1 w2)
    (ht : ∀ mr ri, R (transfer role w1 mr ri fuel) (transfer role w2 mr ri fuel))
    (mr : ibv_mr) (qp_num : Nat) :
    R (rendezvous role w1 mr qp_num fuel) (rendezvous role w2 mr qp_num fuel) := by
  have hs2 := hs
  obtain ⟨_, _, _, _, _, _, _, _, _, _, _, _, a13, a14, a15, a16, _, _⟩ := hs2
  have hloc : local_info w1 mr qp_num = local_info w2 mr qp_num := by
    simp [local_info, a14]
  unfold rendezvous
  rw [a13, a15, a16, hloc]
  apply hafter
  split
  · exact hrefl _
  apply hafter
  split
  · exact hrefl _
  · exact arm_qp_congr R hrefl hafter role w1 w2 fuel hs ht _ _

theorem create_queues_congr (R : Traced Outcome → Traced Outcome → Prop) (hrefl : ∀ a, R a a)
    (hafter : ∀ es a b, R a b → R (Traced.after es a) (Traced.after es b))
    (role : Role) (w1 w2 : World) (fuel : Nat) (hs : same_setup w1 w2)
    (ht : ∀ mr ri, R (transfer role w1 mr ri fuel) (transfer role w2 mr ri fuel))
    (mr : ibv_mr) :
    R (create_queues role w1 mr fuel) (create_queues role w2 mr fuel) := by
  have hs2 := hs
  obtain ⟨_, _, a3, _, _, _, a7, _, _, _, a11, a12, _, _, _, _, _, _⟩ := hs2
  unfold create_queues
  rw [a3, a7, a11, a12]
  apply hafter
  split
  · exact hrefl _
  split
  · exact hrefl _
  split
  · exact hrefl _
  · apply hafter
    exact rendezvous_congr R hrefl hafter role w1 w2 fuel hs ht _ _

theorem acquire_congr (R : Traced Outcome → Traced Outcome → Prop) (hrefl : ∀ a, R a a)
    (hafter : ∀ es a b, R a b → R (Traced.after es a) (Traced.after es b))
    (role : Role) (w1 w2 : World) (fuel : Nat) (hs : same_setup w1 w2)
    (ht : ∀ mr ri, R (transfer role w1 mr ri fuel) (transfer role w2 mr ri fuel)) :
    R (acquire role w1 fuel) (acquire role w2 fuel) := by
  have hs2 := hs
  obtain ⟨_, _, _, _, _, a6, _, a8, a9, a10, _, _, _, _, _, _, _, _⟩ := hs2
  unfold acquire
  rw [a6, a8, a9, a10]
  apply hafter
  split
  · exact hrefl _
  apply hafter
  split
  · exact hrefl _
  apply hafter
  split
  · exact hrefl _
  split
  · exact hrefl _
  · apply hafter
    exact create_queues_congr R hrefl hafter role w1 w2 fuel hs ht _

/-- Two worlds that answer every call before the data plane alike give runs of
`main` related by `R` as soon as their data planes are, for any relation that
holds of equal runs and survives a common sequence of leading calls. -/
theorem main_congr (R : Traced Outcome → Traced Outcome → Prop) (hrefl : ∀ a, R a a)
    (hafter : ∀ es a b, R a b → R (Traced.after es a) (Traced.after es b))
    (role : Role) (w1 w2 : World) (fuel : Nat) (hs : same_setup w1 w2)
    (ht : ∀ mr ri, R (transfer role w1 mr ri fuel) (transfer role w2 mr ri fuel)) :
    R (main role w1 fuel) (main role w2 fuel) := by
  have hs2 := hs
  obtain ⟨a1, a2, a3, a4, a5, _, _, _, _, _, _, _, _, _, _, _, _, _⟩ := hs2
  unfold main
  rw [a2, a3, a5, find_device_congr w1 w2 a1 a4]
  apply hafter
  split
  · exact hrefl _
  split
  · exact hrefl _
  apply hafter
  split
  · exact hrefl _
  · exact acquire_congr R hrefl hafter role w1 w2 fuel hs ht

theorem same_polls_refl (a : Traced Outcome) : same_polls a a := ⟨rfl, rfl⟩

theorem same_polls_after (es : List Event) (a b : Traced Outcome) (h : same_polls a b) :
    same_polls (Traced.after es a) (Traced.after es b) := by
  obtain ⟨h1, h2⟩ := h
  exact ⟨h1, by simp [Traced.after, h2]⟩

theorem server_wait_buf (w : World) (b : Nat → String) :
    ∀ fuel k,
      ((server_wait (w.with_buf b) fuel k).1).map erase_buf =
        ((server_wait w fuel k).1).map erase_buf ∧
      (server_wait (w.with_buf b) fuel k).2 = (server_wait w fuel k).2 := by
  intro fuel
  induction fuel with
  | zero => intro k; simp [server_wait]
  | succ n ih =>
    intro k
    unfold server_wait
    have hw : (w.with_buf b).poll_cq k = w.poll_cq k := rfl
    by_cases hp : (w.poll_cq k).1 = 0
    · simp only [hw, hp, if_true, List.map_append]
      exact ⟨by simp [erase_buf, (ih (k + 1)).1], (ih (k + 1)).2⟩
    · simp [hw, hp, erase_buf]

theorem transfer_server_buf (w : World) (b : Nat → String) (mr : ibv_mr) (fuel : Nat) :
    same_polls (transfer_server (w.with_buf b) mr fuel) (transfer_server w mr fuel) := by
  unfold transfer_server
  have hs : (w.with_buf b).post_recv = w.post_recv := rfl
  simp only [hs]
  apply same_polls_after
  split
  · exact same_polls_refl _
  apply same_polls_after
  split
  · exact same_polls_refl _
  have h1 := server_wait_buf w b fuel 0
  rcases hc : server_wait w fuel 0 with ⟨tr, _ | ⟨k, s⟩⟩
  · rcases hc2 : server_wait (w.with_buf b) fuel 0 with ⟨tr2, _ | ⟨k2, s2⟩⟩
    · rw [hc, hc2] at h1
      exact ⟨rfl, h1.1⟩
    · rw [hc, hc2] at h1
      simp at h1
  · rcases hc2 : server_wait (w.with_buf b) fuel 0 with ⟨tr2, _ | ⟨k2, s2⟩⟩
    · rw [hc, hc2] at h1
      simp at h1
    · rw [hc, hc2] at h1
      simp only [Option.some.injEq, Prod.mk.injEq] at h1
      obtain ⟨h1a, h1b, h1c⟩ := h1
      subst h1b h1c
      refine ⟨rfl, ?_⟩
      simp [h1a, erase_buf]

theorem main_server_buf (w : World) (b : Nat → String) (fuel : Nat) :
    same_polls (main .server (w.with_buf b) fuel) (main .server w fuel) := by
  apply main_congr same_polls same_polls_refl same_polls_after
  · exact ⟨rfl, rfl, rfl, rfl, rfl, rfl, rfl, rfl, rfl, rfl, rfl, rfl, rfl, rfl, rfl, rfl, rfl, rfl⟩
  · intro mr ri
    exact transfer_server_buf w b mr fuel

theorem server_wait_ends_iff (w : World) :
    ∀ fuel k, (server_wait w fuel k).2 ≠ none ↔ ∃ j, j < fuel ∧ (w.poll_cq (k + j)).1 ≠ 0 := by
  intro fuel
  induction fuel with
  | zero => intro k; simp [server_wait]
  | succ n ih =>
    intro k
    unfold server_wait
    by_cases hp : (w.poll_cq k).1 = 0
    · simp only [hp, if_true]
      rw [ih (k + 1)]
      constructor
      · rintro ⟨j, hj, hne⟩
        exact ⟨j + 1, by omega, by rwa [show k + (j + 1) = k + 1 + j by omega]⟩
      · rintro ⟨j, hj, hne⟩
        rcases j with _ | j
        · simp [hp] at hne
        · exact ⟨j, by omega, by rwa [show k + 1 + j = k + (j + 1) by omega]⟩
    · simp only [hp, if_false]
      constructor
      · intro _
        exact ⟨0, by omega, by simpa using hp⟩
      · intro _
        simp

theorem transfer_server_waits (w : World) (mr : ibv_mr) (fuel : Nat)
    (h : ∀ k, (w.poll_cq k).1 = 0) : (transfer_server w mr fuel).val ≠ .returned 0 := by
  have hn : (server_wait w fuel 0).2 = none := by
    by_contra hc
    obtain ⟨j, _, hj⟩ := (server_wait_ends_iff w fuel 0).1 hc
    exact hj (h _)
  unfold transfer_server
  simp only [after_val]
  split
  · simp [cleanup_vals]
  split
  · simp [cleanup_vals]
  split
  · simp
  · next tr k st heq =>
    rw [heq] at hn
    simp at hn


/-! ## The descriptor on the wire -/

theorem le32_length (v : Nat) : (le32 v).length = 4 := rfl

theorem le32_val_le32 (v : Nat) (h : v < 2 ^ 32) : le32_val (le32 v) = v := by
  simp only [le32, le32_val, List.getD_cons_zero, List.getD_cons_succ]
  omega

theorem toBytes_length (x : xchg_info) (h : x.wf) : x.toBytes.length = XCHG_SIZE := by
  obtain ⟨_, _, h3⟩ := h
  simp [xchg_info.toBytes, le32_length, h3, XCHG_SIZE]

theorem ofBytes_toBytes_append (x : xchg_info) (h : x.wf) (tail : List Nat) :
    xchg_info.ofBytes (x.toBytes ++ tail) = x := by
  obtain ⟨h1, h2, h3⟩ := h
  have e1 : (x.toBytes ++ tail).take 4 = le32 x.mrkey := by
    simp [xchg_info.toBytes, le32]
  have e2 : ((x.toBytes ++ tail).drop 4).take 4 = le32 x.qp_num := by
    simp [xchg_info.toBytes, le32]
  have e3 : ((x.toBytes ++ tail).drop 8).take 16 = x.gid := by
    simp [xchg_info.toBytes, le32, h3]
  unfold xchg_info.ofBytes
  rw [e1, e2, e3, le32_val_le32 _ h1, le32_val_le32 _ h2]

theorem store_full (old x : xchg_info) (h : x.wf) :
    old.store (read_data (some x.toBytes) XCHG_SIZE) = x := by
  have hl := toBytes_length x h
  unfold xchg_info.store read_data
  simp only []
  rw [← hl, List.take_length]
  exact ofBytes_toBytes_append x h _

theorem read_ret_full (x : xchg_info) (h : x.wf) :
    read_ret (some x.toBytes) XCHG_SIZE = XCHG_SIZE := by
  have hl := toBytes_length x h
  unfold read_ret
  simp only []
  rw [← hl, List.take_length]

theorem read_data_full (x : xchg_info) (h : x.wf) :
    read_data (some x.toBytes) XCHG_SIZE = x.toBytes := by
  have hl := toBytes_length x h
  unfold read_data
  simp only []
  rw [← hl, List.take_length]

theorem read_ret_nonneg (avail : Option (List Nat)) (count : Nat) (h : avail ≠ none) :
    ¬ read_ret avail count < 0 := by
  cases avail with
  | none => exact absurd rfl h
  | some d => simp only [read_ret]; omega

/-- The run of the listener when every socket call succeeds. -/
theorem exchange_info_ok_server (s : SockWorld) (remote loc : xchg_info)
    (hs : sock_calls_ok .server s) :
    exchange_info .server s remote loc =
      ⟨[.socket s.socket, .gethostbyname true, .bind s.bind, .listen s.listen,
        .accept s.accept,
        .read XCHG_SIZE (read_ret s.read XCHG_SIZE) (read_data s.read XCHG_SIZE),
        .write loc.toBytes XCHG_SIZE s.write, .close_comm, .close_sock],
       (0, remote.store (read_data s.read XCHG_SIZE))⟩ := by
  obtain ⟨h1, h2, ⟨h3a, h3b, h3c⟩, h4, h5⟩ := hs
  have g1 : ¬ s.socket < 0 := by omega
  have g4 := read_ret_nonneg s.read XCHG_SIZE h4
  have g5 : ¬ s.write < 0 := by omega
  have g3a : ¬ s.bind < 0 := by omega
  have g3b : ¬ s.listen < 0 := by omega
  have g3c : ¬ s.accept < 0 := by omega
  unfold exchange_info exchange_info_listener
  simp [Traced.after, g1, h2, g3a, g3b, g3c, g4, g5]

/-- The run of the initiator when every socket call succeeds. -/
theorem exchange_info_ok_client (s : SockWorld) (remote loc : xchg_info)
    (hs : sock_calls_ok .client s) :
    exchange_info .client s remote loc =
      ⟨[.socket s.socket, .gethostbyname true, .connect s.connect,
        .write loc.toBytes XCHG_SIZE s.write,
        .read XCHG_SIZE (read_ret s.read XCHG_SIZE) (read_data s.read XCHG_SIZE),
        .close_sock],
       (0, remote.store (read_data s.read XCHG_SIZE))⟩ := by
  obtain ⟨h1, h2, h3, h4, h5⟩ := hs
  have g1 : ¬ s.socket < 0 := by omega
  have g4 := read_ret_nonneg s.read XCHG_SIZE h4
  have g5 : ¬ s.write < 0 := by omega
  have g3 : ¬ s.connect < 0 := by
    have : 0 ≤ s.connect := h3
    omega
  unfold exchange_info exchange_info_initiator
  simp [Traced.after, g1, h2, g3, g4, g5]

/-- What `exchange_info` leaves in `*remote` when it returns 0. -/
theorem exchange_info_remote (role : Role) (s : SockWorld) (remote loc : xchg_info)
    (h : (exchange_info role s remote loc).val.1 = 0) :
    (exchange_info role s remote loc).val.2 = remote.store (read_data s.read XCHG_SIZE) := by
  have hs := (exchange_info_ret_zero _ _ _ _).1 h
  cases role
  · rw [exchange_info_ok_server s remote loc hs]
  · rw [exchange_info_ok_client s remote loc hs]

/-- Without a failing read or write, the run of `exchange_info` has no stream
call at all when the connection was not set up. -/
theorem exchange_info_no_stream_calls (role : Role) (s : SockWorld) (remote loc : xchg_info)
    (hr : s.read ≠ none) (hw : 0 ≤ s.write)
    (h : (exchange_info role s remote loc).val.1 ≠ 0) :
    stream_calls (exchange_info role s remote loc).trace = [] := by
  have hn : ¬ sock_calls_ok role s := fun hc => h ((exchange_info_ret_zero _ _ _ _).2 hc)
  have g4 := read_ret_nonneg s.read XCHG_SIZE hr
  have g5 : ¬ s.write < 0 := by omega
  unfold exchange_info exchange_info_listener exchange_info_initiator
  unfold sock_calls_ok at hn
  cases role <;> simp only [after_trace, g4, g5, if_false] <;> (repeat' split) <;>
    first
      | (simp [stream_calls]; done)
      | (exfalso; apply hn; simp_all)

theorem rendezvous_continues (role : Role) (w : World) (mr : ibv_mr) (qp_num fuel : Nat)
    (hg : w.query_gid = 0) (hs : sock_calls_ok role w.sock) :
    rendezvous role w mr qp_num fuel =
      Traced.after
        (.ibv_query_gid 0 ::
          (exchange_info role w.sock w.remote_info0 (local_info w mr qp_num)).trace)
        (arm_qp role w mr (w.remote_info0.store (read_data w.sock.read XCHG_SIZE)) fuel) := by
  have h0 := (exchange_info_ret_zero role w.sock w.remote_info0 (local_info w mr qp_num)).2 hs
  have h1 := exchange_info_remote role w.sock w.remote_info0 (local_info w mr qp_num) h0
  unfold rendezvous
  simp only [hg, h0, h1, ne_eq, not_true_eq_false, if_false]
  simp [Traced.after]


/-! ## Shared consequences -/

theorem all_steps_ok_iff (role : Role) (w : World) :
    all_steps_ok role w ↔
      (w.get_device_list = true ∧ device_opened w ∧ w.query_device = 0 ∧ w.mmap = true ∧
        w.alloc_pd = true ∧ w.reg_mr ≠ none ∧ w.create_cq = true ∧ w.create_qp ≠ none ∧
        w.query_gid = 0 ∧ sock_calls_ok role w.sock ∧ w.query_port = 0 ∧
        w.modify_qp 0 = 0 ∧ w.modify_qp 1 = 0 ∧ (role = .client → w.modify_qp 2 = 0)) ∧
      posts_ok role w := by
  unfold all_steps_ok
  have hx : (∀ remote loc, (exchange_info role w.sock remote loc).val.1 = 0) ↔
      sock_calls_ok role w.sock := by
    constructor
    · intro h
      exact (exchange_info_ret_zero role w.sock ⟨0, 0, []⟩ ⟨0, 0, []⟩).1 (h _ _)
    · intro h remote loc
      exact (exchange_info_ret_zero role w.sock remote loc).2 h
  rw [hx]
  tauto

/-- A returned value of `main` is zero exactly when every step succeeded. -/
theorem main_returned_zero_iff (role : Role) (w : World) (fuel : Nat) (err : Int)
    (h : (main role w fuel).val = .returned err) : err = 0 ↔ all_steps_ok role w := by
  rw [all_steps_ok_iff]
  rcases main_val role w with ⟨h1, h2⟩ | ⟨h1, mr, ri, h2⟩
  · obtain ⟨e, he, hv⟩ := h2 fuel
    rw [h] at hv
    simp only [Outcome.returned.injEq] at hv
    subst hv
    constructor
    · intro h0; exact absurd h0 he
    · intro hc; exact absurd hc.1 h1
  · rw [h2 fuel] at h
    rw [transfer_returned role w mr ri fuel err h]
    constructor
    · intro hp; exact ⟨h1, hp⟩
    · intro hc; exact hc.2

/-- With polls that deliver, `main` returns for some iteration budget. -/
theorem main_returns (role : Role) (w : World) (hp : polls_deliver w) :
    ∃ fuel err, (main role w fuel).val = .returned err := by
  rcases main_val role w with ⟨_, h2⟩ | ⟨_, mr, ri, h2⟩
  · obtain ⟨e, _, hv⟩ := h2 0
    exact ⟨0, e, hv⟩
  · obtain ⟨fuel, err, hv⟩ := transfer_returns role w mr ri hp
    exact ⟨fuel, err, by rw [h2 fuel]; exact hv⟩

theorem main_returns_zero (role : Role) (w : World) (h : all_steps_ok role w)
    (hp : polls_deliver w) : ∃ fuel, (main role w fuel).val = .returned 0 := by
  obtain ⟨fuel, err, hv⟩ := main_returns role w hp
  have := (main_returned_zero_iff role w fuel err hv).2 h
  subst this
  exact ⟨fuel, hv⟩

theorem main_defined (role : Role) (w : World) (fuel : Nat) :
    (main role w fuel).val ≠ .undefined := by
  rcases main_val role w with ⟨_, h2⟩ | ⟨_, mr, ri, h2⟩
  · obtain ⟨e, _, hv⟩ := h2 fuel
    rw [hv]; simp
  · rw [h2 fuel]
    exact transfer_defined role w mr ri fuel

theorem find_device_none (w : World) (h : w.ndev ≤ 0) :
    find_device w w.ndev.toNat 0 = none := by
  have : w.ndev.toNat = 0 := by omega
  rw [this]
  rfl

theorem server_polling (w : World) (h : all_steps_ok .server w)
    (hz : ∀ k, (w.poll_cq k).1 = 0) (fuel : Nat) : (main .server w fuel).val = .polling := by
  have hq := (all_steps_ok_iff .server w).1 h
  rcases main_val .server w with ⟨h1, _⟩ | ⟨_, mr, ri, h2⟩
  · exact absurd hq.1 h1
  · rw [h2 fuel]
    have hn : (server_wait w fuel 0).2 = none := by
      by_contra hc
      obtain ⟨j, _, hj⟩ := (server_wait_ends_iff w fuel 0).1 hc
      exact hj (hz _)
    obtain ⟨p0, p1⟩ := hq.2
    unfold transfer transfer_server
    simp only [after_val, p0, p1, ne_eq, not_true_eq_false, if_false]
    split
    · rfl
    · next tr k st heq =>
      rw [heq] at hn
      simp at hn

theorem all_steps_ok_world_ok (role : Role) : all_steps_ok role world_ok := by
  rw [all_steps_ok_iff]
  refine ⟨⟨rfl, ⟨1, by decide, rfl⟩, rfl, rfl, rfl, by simp [world_ok], rfl, by simp [world_ok],
    rfl, ?_, rfl, rfl, rfl, fun _ => rfl⟩, ?_⟩
  · cases role
    · refine ⟨by decide, rfl, ⟨by decide, by decide, by decide⟩, by simp [world_ok, sock_ok],
        by decide⟩
    · refine ⟨by decide, rfl, ?_, by simp [world_ok, sock_ok], by decide⟩
      show (0 : Int) ≤ world_ok.sock.connect
      decide
  · cases role
    · exact ⟨rfl, rfl⟩
    · exact ⟨rfl, rfl⟩


/-! ## When `main` returns -/

theorem zero_polls_succ (w : World) (k n : Nat) :
    zero_polls w k (n + 1) ↔ (w.poll_cq k).1 = 0 ∧ zero_polls w (k + 1) n := by
  unfold zero_polls
  constructor
  · intro h
    refine ⟨by simpa using h 0 (by omega), ?_⟩
    intro j hj
    have := h (j + 1) (by omega)
    rwa [show k + (j + 1) = k + 1 + j by omega] at this
  · rintro ⟨h0, h⟩ j hj
    rcases j with _ | j
    · simpa using h0
    · have := h j (by omega)
      rwa [show k + 1 + j = k + (j + 1) by omega] at this

theorem client_wait_none_iff (w : World) :
    ∀ fuel k, (client_wait w fuel k).2 = none ↔ zero_polls w k fuel := by
  intro fuel
  induction fuel with
  | zero => intro k; simp [client_wait, zero_polls]
  | succ n ih =>
    intro k
    rw [zero_polls_succ]
    unfold client_wait
    by_cases hp : (w.poll_cq k).1 = 0
    · simp only [hp, if_true, true_and]
      exact ih (k + 1)
    · simp [hp]

theorem client_wait_some_iff (w : World) :
    ∀ fuel k k2 st, (client_wait w fuel k).2 = some (k2, st) ↔
      ∃ j, j < fuel ∧ zero_polls w k j ∧ (w.poll_cq (k + j)).1 ≠ 0 ∧ k2 = k + j + 1 ∧
        st = (w.poll_cq (k + j)).2 := by
  intro fuel
  induction fuel with
  | zero => intro k k2 st; simp [client_wait]
  | succ n ih =>
    intro k k2 st
    unfold client_wait
    by_cases hp : (w.poll_cq k).1 = 0
    · simp only [hp, if_true]
      rw [ih (k + 1)]
      constructor
      · rintro ⟨j, hj, hz, hne, hk, hs⟩
        refine ⟨j + 1, by omega, (zero_polls_succ w k j).2 ⟨hp, hz⟩, ?_, by omega, ?_⟩
        · rwa [show k + (j + 1) = k + 1 + j by omega]
        · rwa [show k + (j + 1) = k + 1 + j by omega]
      · rintro ⟨j, hj, hz, hne, hk, hs⟩
        rcases j with _ | j
        · simp [hp] at hne
        · refine ⟨j, by omega, ((zero_polls_succ w k j).1 hz).2, ?_, by omega, ?_⟩
          · rwa [show k + 1 + j = k + (j + 1) by omega]
          · rwa [show k + 1 + j = k + (j + 1) by omega]
    · simp only [hp, if_false, Option.some.injEq, Prod.mk.injEq]
      constructor
      · rintro ⟨hk, hs⟩
        exact ⟨0, by omega, by simp [zero_polls], by simpa using hp, by omega, by simpa using hs.symm⟩
      · rintro ⟨j, hj, hz, hne, hk, hs⟩
        rcases j with _ | j
        · simp at hk hs
          exact ⟨hk.symm, hs.symm⟩
        · exact absurd (((zero_polls_succ w k j).1 hz).1) hp

theorem server_wait_none_iff (w : World) (fuel k : Nat) :
    (server_wait w fuel k).2 = none ↔ zero_polls w k fuel := by
  have h := server_wait_ends_iff w fuel k
  unfold zero_polls
  constructor
  · intro hn j hj
    by_contra hc
    exact (h.2 ⟨j, hj, hc⟩) hn
  · intro hz
    by_contra hc
    obtain ⟨j, hj, hne⟩ := h.1 hc
    exact hne (hz j hj)

theorem transfer_polling_iff (role : Role) (w : World) (mr : ibv_mr) (ri : xchg_info)
    (fuel : Nat) : (transfer role w mr ri fuel).val = .polling ↔ waiting role w fuel := by
  cases role
  · unfold transfer transfer_server waiting
    simp only [after_val]
    by_cases h0 : w.post_recv 0 = 0
    swap
    · simp [h0, cleanup_vals]
    by_cases h1 : w.post_recv 1 = 0
    swap
    · simp [h0, h1, cleanup_vals]
    simp only [h0, h1, ne_eq, not_true_eq_false, if_false, true_and]
    rw [← server_wait_none_iff w fuel 0]
    rcases hc : server_wait w fuel 0 with ⟨tr, _ | ⟨k, s⟩⟩
    · simp
    · simp [cleanup_vals]
  · have hW : waiting .client w fuel ↔
        (w.post_send 0 = 0 ∧
          ((client_wait w fuel 0).2 = none ∨
            ∃ k st, (client_wait w fuel 0).2 = some (k, st) ∧ w.post_send 1 = 0 ∧
              (client_wait w fuel k).2 = none)) := by
      unfold waiting
      apply and_congr Iff.rfl
      apply or_congr (client_wait_none_iff w fuel 0).symm
      constructor
      · rintro ⟨j, hj, hz, hne, h1, hzz⟩
        refine ⟨j + 1, (w.poll_cq (0 + j)).2, ?_, h1, (client_wait_none_iff w fuel (j + 1)).2 hzz⟩
        exact (client_wait_some_iff w fuel 0 (j + 1) _).2
          ⟨j, hj, hz, by simpa using hne, by omega, rfl⟩
      · rintro ⟨k, st, hs, h1, hn⟩
        obtain ⟨j, hj, hz, hne, hk, _⟩ := (client_wait_some_iff w fuel 0 k st).1 hs
        simp only [Nat.zero_add] at hne hk
        subst hk
        exact ⟨j, hj, hz, hne, h1, (client_wait_none_iff w fuel (j + 1)).1 hn⟩
    rw [hW]
    unfold transfer transfer_client
    simp only [after_val]
    by_cases h0 : w.post_send 0 = 0
    swap
    · simp [h0, cleanup_vals]
    simp only [h0, ne_eq, not_true_eq_false, if_false, true_and]
    rcases hc : client_wait w fuel 0 with ⟨tr, _ | ⟨k, s⟩⟩
    · simp
    · simp only [after_val, reduceCtorEq, false_or, Option.some.injEq, Prod.mk.injEq]
      by_cases h1 : w.post_send 1 = 0
      swap
      · simp [h1, cleanup_vals]
      simp only [h1, not_true_eq_false, if_false, true_and]
      rcases hd : client_wait w fuel k with ⟨tr2, _ | ⟨k3, s3⟩⟩
      · simp only [true_iff]
        exact ⟨k, s, ⟨rfl, rfl⟩, by rw [hd]⟩
      · simp only [after_val, cleanup_vals, reduceCtorEq, false_iff]
        rintro ⟨k4, s4, ⟨hk4, _⟩, hn⟩
        subst hk4
        rw [hd] at hn
        simp at hn

theorem setup_ok_iff (role : Role) (w : World) :
    setup_ok role w ↔
      (w.get_device_list = true ∧ device_opened w ∧ w.query_device = 0 ∧ w.mmap = true ∧
        w.alloc_pd = true ∧ w.reg_mr ≠ none ∧ w.create_cq = true ∧ w.create_qp ≠ none ∧
        w.query_gid = 0 ∧ sock_calls_ok role w.sock ∧ w.query_port = 0 ∧
        w.modify_qp 0 = 0 ∧ w.modify_qp 1 = 0 ∧ (role = .client → w.modify_qp 2 = 0)) := by
  unfold setup_ok
  have hx : (∀ remote loc, (exchange_info role w.sock remote loc).val.1 = 0) ↔
      sock_calls_ok role w.sock := by
    constructor
    · intro h
      exact (exchange_info_ret_zero role w.sock ⟨0, 0, []⟩ ⟨0, 0, []⟩).1 (h _ _)
    · intro h remote loc
      exact (exchange_info_ret_zero role w.sock remote loc).2 h
  rw [hx]

/-- A step before the data plane that fails makes `main` return a non-zero
value, whatever the polls would answer. -/
theorem main_returns_on_setup_failure (role : Role) (w : World) (h : ¬ setup_ok role w)
    (fuel : Nat) : ∃ err, err ≠ 0 ∧ (main role w fuel).val = .returned err := by
  rw [setup_ok_iff] at h
  rcases main_val role w with ⟨_, h2⟩ | ⟨h1, _⟩
  · exact h2 fuel
  · exact absurd h1 h

/-- The runs of `main` that have not returned are those inside a polling loop
of the data plane, after every step before it succeeded. -/
theorem main_returns_iff (role : Role) (w : World) (fuel : Nat) :
    (∃ err, (main role w fuel).val = .returned err) ↔
      ¬ (setup_ok role w ∧ waiting role w fuel) := by
  rw [setup_ok_iff]
  rcases main_val role w with ⟨h1, h2⟩ | ⟨h1, mr, ri, h2⟩
  · obtain ⟨e, _, hv⟩ := h2 fuel
    constructor
    · intro _ hc
      exact h1 hc.1
    · intro _
      exact ⟨e, hv⟩
  · rw [h2 fuel, ← transfer_polling_iff role w mr ri fuel]
    have hd := transfer_defined role w mr ri fuel
    cases hv : (transfer role w mr ri fuel).val with
    | returned e =>
      constructor
      · intro _ hc
        simp at hc
      · intro _
        exact ⟨e, rfl⟩
    | undefined => exact absurd hv hd
    | polling =>
      constructor
      · rintro ⟨e, he⟩
        simp at he
      · intro hc
        exact absurd ⟨h1, rfl⟩ hc


theorem acquisitions_rendezvous (role : Role) (w : World) (mr : ibv_mr) (qp_num fuel : Nat) :
    acquisitions (rendezvous role w mr qp_num fuel).trace = [] := by
  have h := (settles_rendezvous role w mr qp_num fuel []).2.1
  exact List.prefix_nil.1 h

theorem acquisitions_cons (e : Event) (tr : List Event) :
    acquisitions (e :: tr) =
      (match acquired e with
        | some x => [x]
        | none => []) ++ acquisitions tr := by
  unfold acquisitions
  rw [List.filterMap_cons]
  cases acquired e <;> rfl

/-- The acquisitions of a run of `main` are the ones that succeed in its
world, up to the first step that fails. -/
theorem acquisitions_main (role : Role) (w : World) (fuel : Nat) :
    acquisitions (main role w fuel).trace = acquirable w := by
  unfold main acquire create_queues acquirable
  cases h1 : w.get_device_list
  · simp [acquisitions_cons, acquired, acquisitions]
  cases h2 : find_device w w.ndev.toNat 0 with
  | none => simp [acquisitions_cons, acquired, acquisitions, cleanup_traces]
  | some i =>
    have hn := find_device_ndev w i h2
    cases h3 : w.open_device i
    · simp [h3, acquisitions_cons, acquired, acquisitions, cleanup_traces]
    by_cases h4 : w.query_device = 0
    swap
    · simp [h3, h4, acquisitions_cons, acquired, acquisitions, cleanup_traces]
    cases h5 : w.mmap
    · simp [h3, h4, h5, acquisitions_cons, acquired, acquisitions, cleanup_traces]
    cases h6 : w.alloc_pd
    · simp [h3, h4, h5, h6, acquisitions_cons, acquired, acquisitions, cleanup_traces]
    cases h7 : w.reg_mr with
    | none => simp [h3, h4, h5, h6, h7, acquisitions_cons, acquired, acquisitions, cleanup_traces]
    | some mr =>
      cases h8 : w.create_cq
      · simp [h3, h4, h5, h6, h7, h8, acquisitions_cons, acquired, acquisitions, cleanup_traces]
      rw [int_div_pos _ _ hn.1]
      cases h9 : w.create_qp with
      | none =>
        simp [h3, h4, h5, h6, h7, h8, h9, acquisitions_cons, acquired, acquisitions,
          cleanup_traces]
      | some q =>
        simp [h3, h4, h5, h6, h7, h8, h9, acquisitions_cons, acquired,
          acquisitions_rendezvous]


/-- Every request in a shaped list is one of the three the program builds. -/
theorem modify_shape_kind (role : Role) (ms : List (ibv_qp_attr × List ibv_qp_attr_mask × Int))
    (h : modify_shape role ms) (i : Nat) (a : ibv_qp_attr) (m : List ibv_qp_attr_mask)
    (r : Int) (hi : ms[i]? = some (a, m, r)) :
    (a = attr_init ∧ m = mask_init) ∨
    (∃ ri, a = attr_rtr ri ∧ m = mask_rtr) ∨
    (∃ ri, a = attr_rts ri ∧ m = mask_rts ∧ role = .client) := by
  rcases h with h | ⟨r1, hr1, h⟩ | ⟨ri, r1, hr1, h⟩ | ⟨ri, _, h⟩ | ⟨ri, r1, hc, h⟩
  · subst h; simp at hi
  · subst h
    rcases i with _ | i
    · simp at hi
      obtain ⟨rfl, rfl, rfl⟩ := hi
      exact Or.inl ⟨rfl, rfl⟩
    · simp at hi
  · subst h
    rcases i with _ | _ | i
    · simp at hi
      obtain ⟨rfl, rfl, rfl⟩ := hi
      exact Or.inl ⟨rfl, rfl⟩
    · simp at hi
      obtain ⟨rfl, rfl, rfl⟩ := hi
      exact Or.inr (Or.inl ⟨ri, rfl, rfl⟩)
    · simp at hi
  · subst h
    rcases i with _ | _ | i
    · simp at hi
      obtain ⟨rfl, rfl, rfl⟩ := hi
      exact Or.inl ⟨rfl, rfl⟩
    · simp at hi
      obtain ⟨rfl, rfl, rfl⟩ := hi
      exact Or.inr (Or.inl ⟨ri, rfl, rfl⟩)
    · simp at hi
  · subst h
    rcases i with _ | _ | _ | i
    · simp at hi
      obtain ⟨rfl, rfl, rfl⟩ := hi
      exact Or.inl ⟨rfl, rfl⟩
    · simp at hi
      obtain ⟨rfl, rfl, rfl⟩ := hi
      exact Or.inr (Or.inl ⟨ri, rfl, rfl⟩)
    · simp at hi
      obtain ⟨rfl, rfl, rfl⟩ := hi
      exact Or.inr (Or.inr ⟨ri, rfl, rfl, hc⟩)
    · simp at hi

/-! ## The claims -/

/-- C1, counterexample.  When `ibv_alloc_pd` fails, `main` has acquired the
device list, the device context and the buffer mapping, and it releases only
the device context and the device list: the releases are not the reverse of
the acquisitions, the mapping stays. -/
theorem main_leaves_buffer_mapped :
    (main .server world_no_pd 0).val = .returned (-1) ∧
    acquisitions (main .server world_no_pd 0).trace = [.dev_list, .ctx, .buf] ∧
    releases (main .server world_no_pd 0).trace = [.ctx, .dev_list] ∧
    releases (main .server world_no_pd 0).trace ≠
      (acquisitions (main .server world_no_pd 0).trace).reverse := by
  decide

/-- C1, as amended.  In every run of `main`, in either build variant: no
`munmap` is called; the acquisitions that succeed are the ones the world
grants, in the order device list, device context, buffer mapping, protection
domain, memory region, completion queue, queue pair, up to the first step
that fails; `main` returns unless every step before the data plane succeeded
and it is inside a polling loop, so it returns at every failure point of the
acquisitions, the rendezvous and the state transitions whatever the polls
answer; and whenever it returns, at whatever point it failed or on success,
the releases it performed are exactly the reverse of those acquisitions with
the buffer mapping left out. -/
theorem main_releases_in_reverse (role : Role) (w : World) (fuel : Nat) :
    Event.munmap ∉ (main role w fuel).trace ∧
    acquisitions (main role w fuel).trace = acquirable w ∧
    acquisitions (main role w fuel).trace <+: acquisition_order ∧
    (∀ err, (main role w fuel).val = .returned err →
      releases (main role w fuel).trace =
        ((acquisitions (main role w fuel).trace).filter (fun x => x ≠ .buf)).reverse) ∧
    ((∃ err, (main role w fuel).val = .returned err) ↔
      ¬ (setup_ok role w ∧ waiting role w fuel)) ∧
    (¬ setup_ok role w → ∃ err, err ≠ 0 ∧ (main role w fuel).val = .returned err) ∧
    (¬ (setup_ok role w ∧ waiting role w fuel) →
      releases (main role w fuel).trace =
        ((acquirable w).filter (fun x => x ≠ .buf)).reverse) := by
  have h := settles_main role w fuel
  unfold settles at h
  obtain ⟨h1, h2, h3⟩ := h
  have h3s : ∀ err, (main role w fuel).val = .returned err →
      releases (main role w fuel).trace =
        ((acquisitions (main role w fuel).trace).filter (fun x => x ≠ .buf)).reverse := by
    intro err he
    simpa using h3 err he
  refine ⟨h1, acquisitions_main role w fuel, h2, h3s, main_returns_iff role w fuel,
    fun hn => main_returns_on_setup_failure role w hn fuel, ?_⟩
  intro hn
  obtain ⟨err, he⟩ := (main_returns_iff role w fuel).2 hn
  rw [h3s err he, acquisitions_main]

/-- C1, witness: the server of `world_no_pd`, where `ibv_alloc_pd` fails while
no poll budget is given, returns and has released the device context and the
device list; the server of `world_ok` returns 0 with all six released. -/
theorem main_releases_in_reverse_witness :
    acquirable world_no_pd = [.dev_list, .ctx, .buf] ∧
    (∃ err, err ≠ 0 ∧ (main .server world_no_pd 0).val = .returned err) ∧
    releases (main .server world_no_pd 0).trace = [.ctx, .dev_list] ∧
    (main .server world_ok 1).val = .returned 0 ∧
    releases (main .server world_ok 1).trace =
      ((acquisitions (main .server world_ok 1).trace).filter (fun x => x ≠ .buf)).reverse :=
  ⟨by decide,
   (main_releases_in_reverse .server world_no_pd 0).2.2.2.2.2.1
     (fun h => absurd h.2.2.2.2.1 (by decide)),
   (main_releases_in_reverse .server world_no_pd 0).2.2.2.2.2.2
     (fun h => absurd h.1.2.2.2.2.1 (by decide)),
   by decide,
   (main_releases_in_reverse .server world_ok 1).2.2.2.1 0 (by decide)⟩

/-- C3, the code at the failing input.  The region of `world_ok` has lkey
0x1111 and rkey 0x2222.  The descriptor its server writes carries 0x1111, the
lkey, in its first field (and the queue pair number and the GID in the other
two), and the client that reads this descriptor puts 0x1111 in the `rkey` of
both work requests. -/
theorem descriptor_carries_lkey :
    world_ok.reg_mr = some { lkey := 0x1111, rkey := 0x2222 } ∧
    written (main .server world_ok 1).trace = [server_descriptor.toBytes] ∧
    server_descriptor = { mrkey := 0x1111, qp_num := 9, gid := world_ok.gid } ∧
    world_client_of_ok.sock.read = some server_descriptor.toBytes ∧
    posted_rkeys (main .client world_client_of_ok 1).trace = [0x1111, 0x1111] := by
  decide


/-- C4, counterexample.  In `world_short_read` the peer has closed the stream
and `read` returns 0.  `exchange_info` returns 0 all the same, and `main`
goes on through all three transition requests, with a destination queue pair
number of 0 that no peer sent, and returns 0. -/
theorem short_read_accepted :
    (exchange_info .client world_short_read.sock world_short_read.remote_info0
      (local_info world_short_read { lkey := 0x1111, rkey := 0x2222 } 9)).val.1 = 0 ∧
    Event.read 24 0 [] ∈ (main .client world_short_read 1).trace ∧
    (modify_calls (main .client world_short_read 1).trace).map
      (fun c => (c.1.qp_state, c.1.dest_qp_num, c.2.2)) =
      [(.IBV_QPS_INIT, 0, 0), (.IBV_QPS_RTR, 0, 0), (.IBV_QPS_RTS, 0, 0)] ∧
    (main .client world_short_read 1).val = .returned 0 := by
  decide

/-- C4, as amended.  `exchange_info` treats a failed call as fatal and nothing
else: for either role it returns 0 exactly when `socket`, `gethostbyname`,
the calls that set up the connection, `read` and `write` all report success
(a return value that is not negative), and -1 otherwise.  A read that finds
`d` on the stream, however few bytes that is, leaves `*remote` with its
leading bytes replaced by `d` (at most 24 of them) and the rest as it was,
and `main` goes on from the rendezvous to `ibv_query_port` and the state
transitions with that descriptor. -/
theorem exchange_info_fatal_on_failed_call (role : Role) (s : SockWorld)
    (remote loc : xchg_info) :
    ((exchange_info role s remote loc).val.1 = 0 ↔ sock_calls_ok role s) ∧
    ((exchange_info role s remote loc).val.1 = 0 ∨
      (exchange_info role s remote loc).val.1 = -1) ∧
    (∀ d, s.read = some d → sock_calls_ok role s →
      (exchange_info role s remote loc).val = (0, remote.store (d.take XCHG_SIZE))) ∧
    (∀ w mr qp_num fuel, w.sock = s → w.query_gid = 0 → sock_calls_ok role s →
      rendezvous role w mr qp_num fuel =
        Traced.after
          (.ibv_query_gid 0 ::
            (exchange_info role s w.remote_info0 (local_info w mr qp_num)).trace)
          (arm_qp role w mr (w.remote_info0.store (read_data s.read XCHG_SIZE)) fuel)) := by
  refine ⟨exchange_info_ret_zero role s remote loc, ?_, ?_, ?_⟩
  · rcases exchange_info_ret role s remote loc with ⟨_, h⟩ | ⟨_, h⟩
    · exact Or.inl h
    · exact Or.inr h
  · intro d hd hs
    have h0 := (exchange_info_ret_zero role s remote loc).2 hs
    have h1 := exchange_info_remote role s remote loc h0
    rw [hd] at h1
    exact Prod.ext h0 h1
  · intro w mr qp_num fuel hw hg hs
    subst hw
    exact rendezvous_continues role w mr qp_num fuel hg hs

/-- C4, witness: the client of `world_short_read`, whose read returns 0. -/
theorem exchange_info_fatal_on_failed_call_witness :
    world_short_read.sock.read = some [] ∧
    (exchange_info .client world_short_read.sock world_short_read.remote_info0 peer_a).val =
      (0, world_short_read.remote_info0.store (([] : List Nat).take XCHG_SIZE)) :=
  ⟨rfl,
   (exchange_info_fatal_on_failed_call .client world_short_read.sock
      world_short_read.remote_info0 peer_a).2.2.1 [] rfl
      ((exchange_info_fatal_on_failed_call .client world_short_read.sock
        world_short_read.remote_info0 peer_a).1.1 (by decide))⟩

/-- C5.  `main` returns zero if every acquisition, the rendezvous, every state
transition and every post succeeded and the polls delivered; a value it
returns is zero only if all those steps succeeded, so it is non-zero as soon
as one of them failed, whatever non-zero value the failing call returned.
It does return a non-zero value, whatever the polls answer, when a step
before the data plane fails (device list, device match or open,
`ibv_query_device`, `mmap`, `ibv_alloc_pd`, `ibv_reg_mr`, `ibv_create_cq`,
`ibv_create_qp`, `ibv_query_gid`, `exchange_info`, `ibv_query_port`, an
`ibv_modify_qp`); in general it returns exactly when it is not inside a
polling loop of the data plane, and so for some iteration budget when the
polls deliver. -/
theorem main_exit_code (role : Role) (w : World) :
    (all_steps_ok role w → polls_deliver w →
      ∃ fuel, (main role w fuel).val = .returned 0) ∧
    (∀ fuel err, (main role w fuel).val = .returned err →
      (err = 0 ↔ all_steps_ok role w)) ∧
    (polls_deliver w → ∃ fuel err, (main role w fuel).val = .returned err) ∧
    (¬ setup_ok role w →
      ∀ fuel, ∃ err, err ≠ 0 ∧ (main role w fuel).val = .returned err) ∧
    (∀ fuel, (∃ err, (main role w fuel).val = .returned err) ↔
      ¬ (setup_ok role w ∧ waiting role w fuel)) ∧
    (∀ fuel, ¬ all_steps_ok role w → ¬ (setup_ok role w ∧ waiting role w fuel) →
      ∃ err, err ≠ 0 ∧ (main role w fuel).val = .returned err) := by
  refine ⟨main_returns_zero role w, main_returned_zero_iff role w, main_returns role w,
    fun hn fuel => main_returns_on_setup_failure role w hn fuel,
    main_returns_iff role w, ?_⟩
  intro fuel hn hw
  obtain ⟨err, he⟩ := (main_returns_iff role w fuel).2 hw
  refine ⟨err, ?_, he⟩
  intro h0
  exact hn ((main_returned_zero_iff role w fuel err he).1 h0)

/-- C5, witness: the server of `world_ok` returns 0; the client of a world
whose `ibv_modify_qp` calls return 22 returns 22; and when
`ibv_get_device_list` fails in a world whose polls never deliver, the server
returns a non-zero value with no poll at all. -/
theorem main_exit_code_witness :
    (main .server world_ok 1).val = .returned 0 ∧
    ((0 : Int) = 0 ↔ all_steps_ok .server world_ok) ∧
    (main .client { world_ok with modify_qp := fun _ => 22 } 0).val = .returned 22 ∧
    ((22 : Int) = 0 ↔ all_steps_ok .client { world_ok with modify_qp := fun _ => 22 }) ∧
    (∃ err, err ≠ 0 ∧
      (main .server { world_no_completion with get_device_list := false } 0).val =
        .returned err) :=
  ⟨by decide, (main_exit_code .server world_ok).2.1 1 0 (by decide), by decide,
   (main_exit_code .client { world_ok with modify_qp := fun _ => 22 }).2.1 0 22 (by decide),
   (main_exit_code .server { world_no_completion with get_device_list := false }).2.2.2.1
     (fun h => absurd h.1 (by decide)) 0⟩

/-- C6.  In every run of `main`, among its `ibv_modify_qp` calls in order:
each call is the Reset to Init request (state INIT, port 1, pkey index 0, the
three access flags, with the state, port, pkey-index and access-flags bits in
the mask), the Init to Ready-To-Receive request or, in the client build, the
Ready-To-Receive to Ready-To-Send request; a request for Ready-To-Receive
comes after a Reset to Init request that returned 0; a request for
Ready-To-Send comes after an Init to Ready-To-Receive request that returned
0; and a request that failed is the last one. -/
theorem transitions_in_order (role : Role) (w : World) (fuel : Nat) (i : Nat)
    (a : ibv_qp_attr) (m : List ibv_qp_attr_mask) (r : Int)
    (hi : (modify_calls (main role w fuel).trace)[i]? = some (a, m, r)) :
    ((a.qp_state = .IBV_QPS_INIT ∧ a.port_num = 1 ∧ a.pkey_index = 0 ∧
        a.qp_access_flags =
          [.IBV_ACCESS_LOCAL_WRITE, .IBV_ACCESS_REMOTE_READ, .IBV_ACCESS_REMOTE_WRITE] ∧
        m = [.IBV_QP_STATE, .IBV_QP_PORT, .IBV_QP_PKEY_INDEX, .IBV_QP_ACCESS_FLAGS]) ∨
      (a.qp_state = .IBV_QPS_RTR ∧
        m = [.IBV_QP_STATE, .IBV_QP_PATH_MTU, .IBV_QP_DEST_QPN, .IBV_QP_RQ_PSN,
          .IBV_QP_MAX_DEST_RD_ATOMIC, .IBV_QP_MIN_RNR_TIMER, .IBV_QP_AV]) ∨
      (a.qp_state = .IBV_QPS_RTS ∧ role = .client ∧
        m = [.IBV_QP_STATE, .IBV_QP_SQ_PSN, .IBV_QP_TIMEOUT, .IBV_QP_RETRY_CNT,
          .IBV_QP_RNR_RETRY, .IBV_QP_MAX_QP_RD_ATOMIC])) ∧
    (a.qp_state = .IBV_QPS_RTR →
      ∃ j b, j < i ∧
        (modify_calls (main role w fuel).trace)[j]? =
          some (b, [.IBV_QP_STATE, .IBV_QP_PORT, .IBV_QP_PKEY_INDEX, .IBV_QP_ACCESS_FLAGS],
            0) ∧
        b = attr_init ∧ b.qp_state = .IBV_QPS_INIT ∧ b.port_num = 1 ∧ b.pkey_index = 0 ∧
        b.qp_access_flags =
          [.IBV_ACCESS_LOCAL_WRITE, .IBV_ACCESS_REMOTE_READ, .IBV_ACCESS_REMOTE_WRITE]) ∧
    (a.qp_state = .IBV_QPS_RTS →
      ∃ j b, j < i ∧ b.qp_state = .IBV_QPS_RTR ∧
        (modify_calls (main role w fuel).trace)[j]? =
          some (b, [.IBV_QP_STATE, .IBV_QP_PATH_MTU, .IBV_QP_DEST_QPN, .IBV_QP_RQ_PSN,
            .IBV_QP_MAX_DEST_RD_ATOMIC, .IBV_QP_MIN_RNR_TIMER, .IBV_QP_AV], 0)) ∧
    (r ≠ 0 → (modify_calls (main role w fuel).trace)[i + 1]? = none) := by
  have hs := modify_shape_main role w fuel
  obtain ⟨o1, o2, o3⟩ := modify_shape_order role _ hs i a m r hi
  refine ⟨?_, ?_, ?_, o3⟩
  · rcases modify_shape_kind role _ hs i a m r hi with
      ⟨ha, hm⟩ | ⟨ri, ha, hm⟩ | ⟨ri, ha, hm, hc⟩
    · subst ha hm
      exact Or.inl ⟨rfl, rfl, rfl, rfl, rfl⟩
    · subst ha hm
      exact Or.inr (Or.inl ⟨rfl, rfl⟩)
    · subst ha hm
      exact Or.inr (Or.inr ⟨rfl, hc, rfl⟩)
  · intro h
    obtain ⟨j, hj, hg⟩ := o1 h
    exact ⟨j, attr_init, hj, hg, rfl, rfl, rfl, rfl, rfl⟩
  · intro h
    obtain ⟨j, b, hj, hb, hg⟩ := o2 h
    exact ⟨j, b, hj, hb, hg⟩

/-- C6, witness: the second request of the client of `world_ok`, for
Ready-To-Receive, comes after the granted Reset to Init request with its four
attributes, and the third, for Ready-To-Send, after the granted Init to
Ready-To-Receive request. -/
theorem transitions_in_order_witness :
    (modify_calls (main .client world_ok 0).trace)[1]? =
      some (attr_rtr peer_a, mask_rtr, 0) ∧
    (∃ j b, j < 1 ∧
      (modify_calls (main .client world_ok 0).trace)[j]? =
        some (b, [.IBV_QP_STATE, .IBV_QP_PORT, .IBV_QP_PKEY_INDEX, .IBV_QP_ACCESS_FLAGS],
          0) ∧
      b = attr_init ∧ b.qp_state = .IBV_QPS_INIT ∧ b.port_num = 1 ∧ b.pkey_index = 0 ∧
      b.qp_access_flags =
        [.IBV_ACCESS_LOCAL_WRITE, .IBV_ACCESS_REMOTE_READ, .IBV_ACCESS_REMOTE_WRITE]) ∧
    (modify_calls (main .client world_ok 0).trace)[2]? =
      some (attr_rts peer_a, mask_rts, 0) ∧
    ∃ j b, j < 2 ∧ b.qp_state = .IBV_QPS_RTR ∧
      (modify_calls (main .client world_ok 0).trace)[j]? =
        some (b, [.IBV_QP_STATE, .IBV_QP_PATH_MTU, .IBV_QP_DEST_QPN, .IBV_QP_RQ_PSN,
          .IBV_QP_MAX_DEST_RD_ATOMIC, .IBV_QP_MIN_RNR_TIMER, .IBV_QP_AV], 0) :=
  ⟨by decide,
   (transitions_in_order .client world_ok 0 1 (attr_rtr peer_a) mask_rtr 0 (by decide)).2.1
     rfl,
   by decide,
   (transitions_in_order .client world_ok 0 2 (attr_rts peer_a) mask_rts 0
     (by decide)).2.2.1 rfl⟩

/-- C7, counterexample.  In `world_no_completion` every step succeeds, the
buffer shows `client` each time the server looks, and no poll ever returns a
completion: the server prints `client` and stays in its waiting loop whatever
number of iterations it is given. -/
theorem server_waits_without_completion :
    Event.fprintf_buf "client" ∈ (main .server world_no_completion 1).trace ∧
    ¬ ∃ fuel, (main .server world_no_completion fuel).val ≠ .polling := by
  refine ⟨by decide, ?_⟩
  rintro ⟨fuel, h⟩
  apply h
  apply server_polling
  · have h := all_steps_ok_world_ok .server
    rw [all_steps_ok_iff] at h ⊢
    exact h
  · intro k
    rfl

/-- C7, as amended.  The server decides that the remote-write phase is over
from the return value of `ibv_poll_cq` alone and only prints the buffer: with
other buffer contents `main` ends the same way and makes the same calls; its
waiting loop ends within `fuel` iterations exactly when one of its first
`fuel` polls returns non-zero; and when no poll ever returns non-zero `main`
never returns 0, whatever the buffer shows. -/
theorem server_wait_ignores_buffer (w : World) (b : Nat → String) (fuel : Nat) :
    ((main .server (w.with_buf b) fuel).val = (main .server w fuel).val ∧
      (main .server (w.with_buf b) fuel).trace.map erase_buf =
        (main .server w fuel).trace.map erase_buf) ∧
    (∀ k, (server_wait w fuel k).2 ≠ none ↔ ∃ j, j < fuel ∧ (w.poll_cq (k + j)).1 ≠ 0) ∧
    ((∀ k, (w.poll_cq k).1 = 0) → (main .server (w.with_buf b) fuel).val ≠ .returned 0) := by
  refine ⟨main_server_buf w b fuel, server_wait_ends_iff w fuel, ?_⟩
  intro hz
  rw [(main_server_buf w b fuel).1]
  rcases main_val .server w with ⟨_, h2⟩ | ⟨_, mr, ri, h2⟩
  · obtain ⟨e, he, hv⟩ := h2 fuel
    rw [hv]
    simp only [ne_eq, Outcome.returned.injEq]
    exact he
  · rw [h2 fuel]
    exact transfer_server_waits w mr fuel hz

/-- C7, witness: `world_no_completion` with a buffer that shows `client`. -/
theorem server_wait_ignores_buffer_witness :
    (main .server (world_no_completion.with_buf fun _ => "client") 5).val ≠ .returned 0 :=
  (server_wait_ignores_buffer world_no_completion (fun _ => "client") 5).2.2 (fun _ => rfl)

/-- C8, counterexample.  With one device that allows 50000 outstanding work
requests, `main` asks for a completion queue of depth 100000 and a queue pair
with send and receive capacity 50000 each: the depth is not greater than
their sum. -/
theorem cq_depth_not_above_caps :
    world_big_qp.ndev = 1 ∧ world_big_qp.max_qp_wr = 50000 ∧
    cq_depth (main .client world_big_qp 0).trace = some QUEUESZ ∧
    qp_caps (main .client world_big_qp 0).trace = some (50000, 50000) ∧
    ¬ (50000 + 50000 < QUEUESZ) := by
  decide

/-- C8, as amended.  Whenever `main` reaches queue creation, there is at least
one device, the completion queue was asked for with depth `QUEUESZ`, and both
capacities of the queue pair are `max_qp_wr / ndev` as an unsigned 32 bit
value; the depth is greater than their sum exactly when that value is below
50000, which holds in particular when `0 <= max_qp_wr < 50000 * ndev`. -/
theorem cq_depth_above_caps_iff (role : Role) (w : World) (fuel : Nat) (s r : Nat)
    (h : qp_caps (main role w fuel).trace = some (s, r)) :
    1 ≤ w.ndev ∧ cq_depth (main role w fuel).trace = some QUEUESZ ∧
    s = to_uint32 (Int.tdiv w.max_qp_wr w.ndev) ∧ r = s ∧
    (s + r < QUEUESZ ↔ to_uint32 (Int.tdiv w.max_qp_wr w.ndev) < 50000) ∧
    (0 ≤ w.max_qp_wr → w.max_qp_wr < 50000 * w.ndev → s + r < QUEUESZ) := by
  obtain ⟨h1, _, h3, h4, h5⟩ := qp_caps_main role w fuel s r h
  refine ⟨h1, h3, h4, h5, ?_, ?_⟩
  · subst h5
    rw [← h4]
    unfold QUEUESZ
    omega
  · intro h0 hlt
    have e : Int.tdiv w.max_qp_wr w.ndev = w.max_qp_wr / w.ndev :=
      Int.tdiv_eq_ediv h0 (by omega)
    have l : w.max_qp_wr / w.ndev < 50000 := Int.ediv_lt_of_lt_mul (by omega) hlt
    have g : 0 ≤ w.max_qp_wr / w.ndev := Int.ediv_nonneg h0 (by omega)
    subst h5
    rw [h4, e]
    unfold to_uint32 QUEUESZ
    omega

/-- C8, witness: `world_ok`, two devices and 32768 work requests. -/
theorem cq_depth_above_caps_iff_witness :
    qp_caps (main .server world_ok 0).trace = some (16384, 16384) ∧
    16384 + 16384 < QUEUESZ :=
  ⟨by decide,
   (cq_depth_above_caps_iff .server world_ok 0 16384 16384 (by decide)).2.2.2.2.2
     (by decide) (by decide)⟩

/-- C9.  Over a stream that carries each write in full to the other side, for
descriptors of the fixed size: the listener, when it returns 0, has made
exactly one read and then exactly one write, and the initiator exactly one
write and then exactly one read, each of all 24 bytes, and neither makes any
stream call when it fails to set up its connection; when both return 0 the
record the initiator received is the record the listener sent, byte for
byte, and the other way round. -/
theorem exchange_is_symmetric (ss sc : SockWorld) (rs rc ls lc : xchg_info)
    (hls : ls.wf) (hlc : lc.wf) (hrel : reliable_stream ss sc ls lc) :
    ((exchange_info .server ss rs ls).val.1 = 0 →
      stream_calls (exchange_info .server ss rs ls).trace =
        [.read XCHG_SIZE 24 lc.toBytes, .write ls.toBytes XCHG_SIZE 24]) ∧
    ((exchange_info .client sc rc lc).val.1 = 0 →
      stream_calls (exchange_info .client sc rc lc).trace =
        [.write lc.toBytes XCHG_SIZE 24, .read XCHG_SIZE 24 ls.toBytes]) ∧
    ((exchange_info .server ss rs ls).val.1 ≠ 0 →
      stream_calls (exchange_info .server ss rs ls).trace = []) ∧
    ((exchange_info .client sc rc lc).val.1 ≠ 0 →
      stream_calls (exchange_info .client sc rc lc).trace = []) ∧
    ((exchange_info .server ss rs ls).val.1 = 0 →
      (exchange_info .client sc rc lc).val.1 = 0 →
      (exchange_info .client sc rc lc).val.2 = ls ∧
      (exchange_info .server ss rs ls).val.2 = lc ∧
      (exchange_info .client sc rc lc).val.2.toBytes = ls.toBytes ∧
      (exchange_info .server ss rs ls).val.2.toBytes = lc.toBytes) := by
  obtain ⟨hws, hwc, hrs, hrc⟩ := hrel
  have sz : (XCHG_SIZE : Int) = 24 := rfl
  refine ⟨?_, ?_, ?_, ?_, ?_⟩
  · intro h
    rw [exchange_info_ok_server ss rs ls ((exchange_info_ret_zero _ _ _ _).1 h)]
    simp [stream_calls, hrs, hws, read_ret_full lc hlc, read_data_full lc hlc, sz]
  · intro h
    rw [exchange_info_ok_client sc rc lc ((exchange_info_ret_zero _ _ _ _).1 h)]
    simp [stream_calls, hrc, hwc, read_ret_full ls hls, read_data_full ls hls, sz]
  · intro h
    exact exchange_info_no_stream_calls .server ss rs ls (by simp [hrs])
      (by rw [hws, sz]; decide) h
  · intro h
    exact exchange_info_no_stream_calls .client sc rc lc (by simp [hrc])
      (by rw [hwc, sz]; decide) h
  · intro h1 h2
    have e1 := exchange_info_remote .client sc rc lc h2
    have e2 := exchange_info_remote .server ss rs ls h1
    rw [hrc, store_full rc ls hls] at e1
    rw [hrs, store_full rs lc hlc] at e2
    exact ⟨e1, e2, by rw [e1], by rw [e2]⟩

/-- C9, witness: the server of `world_ok` and a client that sends `peer_a`. -/
theorem exchange_is_symmetric_witness :
    (exchange_info .client (sock_ok server_descriptor) world_ok.remote_info0 peer_a).val.2 =
      server_descriptor ∧
    (exchange_info .server (sock_ok peer_a) world_ok.remote_info0 server_descriptor).val.2 =
      peer_a :=
  have h := (exchange_is_symmetric (sock_ok peer_a) (sock_ok server_descriptor)
    world_ok.remote_info0 world_ok.remote_info0 server_descriptor peer_a
    ⟨by decide, by decide, rfl⟩ ⟨by decide, by decide, rfl⟩ ⟨rfl, rfl, rfl, rfl⟩).2.2.2.2
    (by decide) (by decide)
  ⟨h.1, h.2.1⟩

/-- C10.  `main` never evaluates `max_qp_wr / ndev` with a divisor for which
the division is undefined: no run ends in an undefined division; a run that
reaches `ibv_create_qp`, and so the divisions before it, has found and opened
a device, hence `ndev >= 1`; and when the device list holds no device, `main`
frees the list and returns -1 with no other call. -/
theorem division_has_devices (role : Role) (w : World) (fuel : Nat) :
    (main role w fuel).val ≠ .undefined ∧
    (∀ caps, qp_caps (main role w fuel).trace = some caps →
      1 ≤ w.ndev ∧ device_opened w ∧
      int_div w.max_qp_wr w.ndev = some (Int.tdiv w.max_qp_wr w.ndev)) ∧
    (w.get_device_list = true → w.ndev ≤ 0 →
      main role w fuel =
        ⟨[.ibv_get_device_list true, .ibv_free_device_list], .returned (-1)⟩) := by
  refine ⟨main_defined role w fuel, ?_, ?_⟩
  · intro caps h
    obtain ⟨h1, h2, _⟩ := qp_caps_main role w fuel caps.1 caps.2 h
    exact ⟨h1, h2, int_div_pos _ _ h1⟩
  · intro hl hn
    unfold main
    rw [find_device_none w hn, hl]
    rfl

/-- C10, witness: `world_empty`, whose device list holds no device. -/
theorem division_has_devices_witness :
    main .client world_empty 0 =
      ⟨[.ibv_get_device_list true, .ibv_free_device_list], .returned (-1)⟩ :=
  (division_has_devices .client world_empty 0).2.2 rfl (by decide)


end HelloIB
